import Mathlib

/-!
Verification development for the saba_core browser engine.

This file gives a shallow embedding of the engine's data model and
algorithms — the DOM node types, the HTML tokenizer and tree-construction
state machine, the JavaScript environment and tree-walking evaluator, and
the layout engine (style resolution, sizing, text wrapping, painting) —
and proves or refutes the specification's claims about them.

Conventions of the embedding:
* machine integers are modelled as `Nat`/`Int` (no overflow is reachable in
  the properties considered);
* Rust `panic!`/failed asserts/out-of-bounds indexing are modelled as an
  explicit error outcome (`Option`/dedicated result constructors);
* interior mutability (`Rc<RefCell<_>>`) in the tree builder is modelled by
  an explicit arena of nodes addressed by index, so that the parent /
  first-child / last-child / sibling links can be stated exactly as in the
  source; loops whose termination is in question are given explicit fuel.
-/

namespace RustBrowser

/-! ## DOM basics (saba_core/src/renderer/dom/node.rs) -/

/-- Embedding of `ElementKind` (dom/node.rs): the element kinds the DOM
recognizes. The source enum has exactly these eight variants. -/
inductive ElementKind where
  | html
  | head
  | style
  | script
  | body
  | p
  | h1
  | h2
deriving DecidableEq, Repr

/-- Embedding of `ElementKind::from_str` (dom/node.rs): recognizes exactly the
eight tag names of the enum and returns an error for anything else. -/
def ElementKind.fromStr (s : String) : Except String ElementKind :=
  if s = "html" then .ok .html
  else if s = "head" then .ok .head
  else if s = "style" then .ok .style
  else if s = "script" then .ok .script
  else if s = "body" then .ok .body
  else if s = "p" then .ok .p
  else if s = "h1" then .ok .h1
  else if s = "h2" then .ok .h2
  else .error ("unimplemented element name " ++ s)

/-- Modelled from the spec: the textual form of an `ElementKind` (the
`Display` impl used by `is_node_selected` and `get_target_element_node` is
not under src/); each kind displays as its lowercase tag name. -/
def ElementKind.str : ElementKind → String
  | .html => "html"
  | .head => "head"
  | .style => "style"
  | .script => "script"
  | .body => "body"
  | .p => "p"
  | .h1 => "h1"
  | .h2 => "h2"

/-- Modelled from the spec: `Attribute` (renderer/html/attribute.rs is not
under src/): a (name, value) pair of strings built incrementally by the
tokenizer via `add_char`. -/
structure Attribute where
  name : String
  value : String
deriving DecidableEq, Repr

/-- Modelled from the spec: `Attribute::new` creates an empty pair. -/
def Attribute.new : Attribute := ⟨"", ""⟩

/-- Modelled from the spec: `Attribute::add_char` appends a character to the
name or to the value. -/
def Attribute.addChar (a : Attribute) (c : Char) (isName : Bool) : Attribute :=
  if isName then { a with name := a.name.push c }
  else { a with value := a.value.push c }

/-- Embedding of `NodeKind` (dom/node.rs): a DOM node is a document, an
element (kind plus attributes), or a text node. -/
inductive NodeKind where
  | document
  | element (kind : ElementKind) (attributes : List Attribute)
  | text (s : String)
deriving DecidableEq, Repr

/-- Embedding of `Element::new` followed by `Node::new` (`create_element` in
parser.rs): `Element::new` panics when `ElementKind::from_str` fails, which we
model as `none`. -/
def createElementKind (tag : String) (attributes : List Attribute) :
    Option NodeKind :=
  match ElementKind.fromStr tag with
  | .ok k => some (NodeKind.element k attributes)
  | .error _ => none

/-- C5: `ElementKind::from_str` succeeds on exactly the eight tag strings
html, head, style, script, body, p, h1 and h2 — in particular it FAILS on
"a", although the specification's closed set (and the repository's own
layout tests, which parse `<a class="hidden">`) include the `a` element. -/
theorem elementKind_fromStr_missing_a :
    (∀ k, ElementKind.fromStr "a" ≠ Except.ok k) ∧
    (∀ s : String, (∃ k, ElementKind.fromStr s = Except.ok k) ↔
      s = "html" ∨ s = "head" ∨ s = "style" ∨ s = "script" ∨ s = "body" ∨
      s = "p" ∨ s = "h1" ∨ s = "h2") := by
  constructor
  · intro k h
    simp [ElementKind.fromStr] at h
  · intro s
    constructor
    · rintro ⟨k, hk⟩
      unfold ElementKind.fromStr at hk
      split_ifs at hk <;> tauto
    · intro h
      rcases h with h | h | h | h | h | h | h | h <;>
        subst h <;> exact ⟨_, rfl⟩

/-! ## HTML tokenizer (saba_core/src/renderer/html/token.rs) -/

/-- Embedding of the tokenizer `State` enum (token.rs). -/
inductive TokState where
  | data
  | tagOpen
  | endTagOpen
  | tagName
  | beforeAttributeName
  | attributeName
  | afterAttributeName
  | beforeAttributeValue
  | attributeValueDoubleQuoted
  | attributeValueSingleQuoted
  | attributeValueUnquoted
  | afterAttributeValueQuoted
  | selfClosingStartTag
  | scriptData
  | scriptDataLessThanSign
  | scriptDataEndTagOpen
  | scriptDataEndTagName
  | temporaryBuffer
deriving DecidableEq, Repr

/-- Embedding of `HtmlToken` (token.rs). -/
inductive HtmlToken where
  | startTag (tag : String) (selfClosing : Bool) (attributes : List Attribute)
  | endTag (tag : String)
  | char (c : Char)
  | eof
deriving DecidableEq, Repr

/-- Embedding of the `HtmlTokenizer` struct (token.rs). -/
structure HtmlTokenizer where
  state : TokState
  pos : Nat
  reconsume : Bool
  latestToken : Option HtmlToken
  input : List Char
  buf : String
deriving DecidableEq, Repr

/-- Embedding of `HtmlTokenizer::new`. -/
def HtmlTokenizer.new (html : String) : HtmlTokenizer :=
  { state := .data, pos := 0, reconsume := false, latestToken := none,
    input := html.toList, buf := "" }

/-- Embedding of `consume_next_input`: reads `input[pos]` and advances the
cursor; the unchecked index is a Rust panic when `pos` is out of bounds,
modelled as `none`. -/
def HtmlTokenizer.consumeNextInput (t : HtmlTokenizer) :
    Option (Char × HtmlTokenizer) :=
  match t.input.get? t.pos with
  | some c => some (c, { t with pos := t.pos + 1 })
  | none => none

/-- Embedding of `reconsume_input`: clears the reconsume flag and re-reads
`input[pos - 1]` (again an unchecked index). -/
def HtmlTokenizer.reconsumeInput (t : HtmlTokenizer) :
    Option (Char × HtmlTokenizer) :=
  match t.input.get? (t.pos - 1) with
  | some c => some (c, { t with reconsume := false })
  | none => none

/-- Embedding of `create_tag`. -/
def HtmlTokenizer.createTag (t : HtmlTokenizer) (startTagToken : Bool) :
    HtmlTokenizer :=
  if startTagToken then { t with latestToken := some (.startTag "" false []) }
  else { t with latestToken := some (.endTag "") }

/-- Embedding of `append_tag_name`; the `panic!` on a non-tag latest token
(and the failed assert on `None`) is modelled as `none`. -/
def HtmlTokenizer.appendTagName (t : HtmlTokenizer) (c : Char) :
    Option HtmlTokenizer :=
  match t.latestToken with
  | some (.startTag tag sc attrs) =>
    some { t with latestToken := some (.startTag (tag.push c) sc attrs) }
  | some (.endTag tag) =>
    some { t with latestToken := some (.endTag (tag.push c)) }
  | _ => none

/-- Embedding of `start_new_attribute`. -/
def HtmlTokenizer.startNewAttribute (t : HtmlTokenizer) : Option HtmlTokenizer :=
  match t.latestToken with
  | some (.startTag tag sc attrs) =>
    some { t with latestToken := some (.startTag tag sc (attrs ++ [Attribute.new])) }
  | _ => none

/-- Embedding of `append_attribute` (modifies the last attribute of the
current start tag; asserts the attribute list is non-empty). -/
def HtmlTokenizer.appendAttribute (t : HtmlTokenizer) (c : Char) (isName : Bool) :
    Option HtmlTokenizer :=
  match t.latestToken with
  | some (.startTag tag sc attrs) =>
    match attrs.getLast? with
    | some a =>
      let attrs' := attrs.dropLast ++ [a.addChar c isName]
      some { t with latestToken := some (.startTag tag sc attrs') }
    | none => none
  | _ => none

/-- Embedding of `set_self_closing_flag`. -/
def HtmlTokenizer.setSelfClosingFlag (t : HtmlTokenizer) : Option HtmlTokenizer :=
  match t.latestToken with
  | some (.startTag tag _ attrs) =>
    some { t with latestToken := some (.startTag tag true attrs) }
  | _ => none

/-- Embedding of `take_latest_token` (asserts the latest token exists). -/
def HtmlTokenizer.takeLatestToken (t : HtmlTokenizer) :
    Option (HtmlToken × HtmlTokenizer) :=
  match t.latestToken with
  | some tok => some (tok, { t with latestToken := none })
  | none => none

/-- Embedding of `is_eof`: note the strict comparison `pos > input.len()` in
the source. -/
def HtmlTokenizer.isEof (t : HtmlTokenizer) : Bool :=
  t.input.length < t.pos

/-- Result of one iteration of the loop inside `Iterator::next`. -/
inductive TokIter where
  | emit (tok : HtmlToken) (t : HtmlTokenizer)
  | cont (t : HtmlTokenizer)
  | panic
deriving DecidableEq, Repr

/-- One iteration of the `loop` in `Iterator::next for HtmlTokenizer`
(token.rs): read a character (respecting the reconsume flag), then dispatch
on the current state exactly as the source does. -/
def HtmlTokenizer.nextIter (t0 : HtmlTokenizer) : TokIter :=
  match (if t0.reconsume then t0.reconsumeInput else t0.consumeNextInput) with
  | none => .panic
  | some (c, t) =>
    match t.state with
    | .data =>
      if c = '<' then .cont { t with state := .tagOpen }
      else if t.isEof then .emit .eof t
      else .emit (.char c) t
    | .tagOpen =>
      if c = '/' then .cont { t with state := .endTagOpen }
      else if c.isAlpha then
        .cont (({ t with reconsume := true, state := .tagName }).createTag true)
      else if t.isEof then .emit .eof t
      else .cont { t with reconsume := true, state := .data }
    | .endTagOpen =>
      if t.isEof then .emit .eof t
      else if c.isAlpha then
        .cont (({ t with reconsume := true, state := .tagName }).createTag false)
      else .cont t
    | .tagName =>
      if c = ' ' then .cont { t with state := .beforeAttributeName }
      else if c = '/' then .cont { t with state := .selfClosingStartTag }
      else if c = '>' then
        match ({ t with state := .data }).takeLatestToken with
        | some (tok, t') => .emit tok t'
        | none => .panic
      else if c.isUpper then
        match t.appendTagName c.toLower with
        | some t' => .cont t'
        | none => .panic
      else if t.isEof then .emit .eof t
      else
        match t.appendTagName c with
        | some t' => .cont t'
        | none => .panic
    | .beforeAttributeName =>
      if c = '/' ∨ c = '>' ∨ t.isEof then
        .cont { t with state := .afterAttributeName, reconsume := true }
      else
        match ({ t with reconsume := true, state := .attributeName }).startNewAttribute with
        | some t' => .cont t'
        | none => .panic
    | .attributeName =>
      if c = ' ' ∨ c = '/' ∨ c = '>' ∨ t.isEof then
        .cont { t with reconsume := true, state := .afterAttributeName }
      else if c = '=' then .cont { t with state := .beforeAttributeValue }
      else if c.isUpper then
        match t.appendAttribute c.toLower true with
        | some t' => .cont t'
        | none => .panic
      else
        match t.appendAttribute c true with
        | some t' => .cont t'
        | none => .panic
    | .afterAttributeName =>
      if c = ' ' then .cont t
      else if c = '/' then .cont { t with state := .selfClosingStartTag }
      else if c = '=' then .cont { t with state := .beforeAttributeValue }
      else if c = '>' then
        match ({ t with state := .data }).takeLatestToken with
        | some (tok, t') => .emit tok t'
        | none => .panic
      else if t.isEof then .emit .eof t
      else
        match ({ t with reconsume := true, state := .attributeName }).startNewAttribute with
        | some t' => .cont t'
        | none => .panic
    | .beforeAttributeValue =>
      if c = ' ' then .cont t
      else if c = '"' then .cont { t with state := .attributeValueDoubleQuoted }
      else if c = '\'' then .cont { t with state := .attributeValueSingleQuoted }
      else .cont { t with reconsume := true, state := .attributeValueUnquoted }
    | .attributeValueDoubleQuoted =>
      if c = '"' then .cont { t with state := .afterAttributeValueQuoted }
      else if t.isEof then .emit .eof t
      else
        match t.appendAttribute c false with
        | some t' => .cont t'
        | none => .panic
    | .attributeValueSingleQuoted =>
      if c = '\'' then .cont { t with state := .afterAttributeValueQuoted }
      else if t.isEof then .emit .eof t
      else
        match t.appendAttribute c false with
        | some t' => .cont t'
        | none => .panic
    | .attributeValueUnquoted =>
      if c = ' ' then .cont { t with state := .beforeAttributeName }
      else if c = '>' then
        match ({ t with state := .data }).takeLatestToken with
        | some (tok, t') => .emit tok t'
        | none => .panic
      else if t.isEof then .emit .eof t
      else
        match t.appendAttribute c false with
        | some t' => .cont t'
        | none => .panic
    | .afterAttributeValueQuoted =>
      if c = ' ' then .cont { t with state := .beforeAttributeName }
      else if c = '/' then .cont { t with state := .selfClosingStartTag }
      else if c = '>' then
        match ({ t with state := .data }).takeLatestToken with
        | some (tok, t') => .emit tok t'
        | none => .panic
      else if t.isEof then .emit .eof t
      else .cont { t with reconsume := true, state := .beforeAttributeValue }
    | .selfClosingStartTag =>
      if c = '>' then
        match t.setSelfClosingFlag with
        | some t1 =>
          match ({ t1 with state := .data }).takeLatestToken with
          | some (tok, t') => .emit tok t'
          | none => .panic
        | none => .panic
      else if t.isEof then .emit .eof t
      else .cont t
    | .scriptData =>
      if c = '<' then .cont { t with state := .scriptDataLessThanSign }
      else if t.isEof then .emit .eof t
      else .emit (.char c) t
    | .scriptDataLessThanSign =>
      if c = '/' then .cont { t with buf := "", state := .scriptDataEndTagOpen }
      else .emit (.char '<') { t with reconsume := true, state := .scriptData }
    | .scriptDataEndTagOpen =>
      if c.isAlpha then
        .cont (({ t with reconsume := true, state := .scriptDataEndTagName }).createTag false)
      else .emit (.char '<') { t with reconsume := true, state := .scriptData }
    | .scriptDataEndTagName =>
      if c = '>' then
        match ({ t with state := .data }).takeLatestToken with
        | some (tok, t') => .emit tok t'
        | none => .panic
      else if c.isAlpha then
        match ({ t with buf := t.buf.push c }).appendTagName c.toLower with
        | some t' => .cont t'
        | none => .panic
      else .cont { t with state := .temporaryBuffer, buf := ("</" ++ t.buf).push c }
    | .temporaryBuffer =>
      if t.buf.length = 0 then
        .cont { t with reconsume := true, state := .scriptData }
      else
        match t.buf.toList.head? with
        | some ch =>
          .emit (.char ch) { t with reconsume := true, buf := String.mk t.buf.toList.tail }
        | none => .panic

/-- Result of one full call to `Iterator::next` on the tokenizer: a token
plus updated tokenizer, the `None` of the initial cursor guard, a panic, or
fuel exhaustion of the inner loop (never reached on the inputs considered). -/
inductive TokResult where
  | tok (tok : HtmlToken) (t : HtmlTokenizer)
  | none
  | panic
  | fuelOut
deriving DecidableEq, Repr

/-- The `loop` of `Iterator::next`, with explicit fuel. -/
def HtmlTokenizer.nextLoop : Nat → HtmlTokenizer → TokResult
  | 0, _ => .fuelOut
  | fuel + 1, t =>
    match t.nextIter with
    | .emit tok t' => .tok tok t'
    | .panic => .panic
    | .cont t' => HtmlTokenizer.nextLoop fuel t'

/-- Embedding of `Iterator::next for HtmlTokenizer`: the `pos >= len` guard
returns `None`; otherwise the loop runs (the fuel is generous: each loop
iteration either consumes an input character, emits, or flips the reconsume
flag, so it cannot run longer than a small multiple of the input length). -/
def HtmlTokenizer.nextTok (t : HtmlTokenizer) : TokResult :=
  if t.input.length ≤ t.pos then .none
  else HtmlTokenizer.nextLoop (4 * (t.input.length + 1) + 2 * t.buf.length + 16) t

/-- C10 counterexample: on input "<" the very first call to `next` panics:
the `pos >= len` guard passes, the `<` is consumed moving to the TagOpen
state, and the loop then consumes again, indexing one past the end of the
buffer. -/
theorem tokenizer_next_panics_on_lt :
    HtmlTokenizer.nextTok (HtmlTokenizer.new "<") = TokResult.panic := by
  decide

/-- C10 amended: the bounds check at the top of `next` protects only the
first consume of a call, so safety holds on inputs that never enter the tag
states: for a tokenizer in the Data state with the reconsume flag clear, the
cursor within bounds and no '<' anywhere in the input, every call to `next`
returns without panicking — it answers `None` at the guard or emits a token,
and the updated tokenizer satisfies the same invariant. -/
theorem tokenizer_next_no_panic_without_lt (t : HtmlTokenizer)
    (hs : t.state = TokState.data) (hr : t.reconsume = false)
    (hp : t.pos ≤ t.input.length) (hin : '<' ∉ t.input) :
    t.nextTok ≠ TokResult.panic ∧ t.nextTok ≠ TokResult.fuelOut ∧
    ∀ tok t', t.nextTok = TokResult.tok tok t' →
      (t'.state = TokState.data ∧ t'.reconsume = false ∧
       t'.pos ≤ t'.input.length ∧ t'.input = t.input) := by
  by_cases hle : t.input.length ≤ t.pos
  · refine ⟨?_, ?_, ?_⟩ <;> simp [HtmlTokenizer.nextTok, hle]
  · have hlt : t.pos < t.input.length := by omega
    have hc : t.input[t.pos]? = some (t.input[t.pos]) := List.getElem?_eq_getElem hlt
    have hcmem : t.input[t.pos] ∈ t.input := List.getElem_mem hlt
    have hcne : t.input[t.pos] ≠ '<' := fun h => hin (h ▸ hcmem)
    have heof : ¬ (t.input.length < t.pos + 1) := by omega
    have hiter : t.nextIter =
        TokIter.emit (HtmlToken.char (t.input[t.pos])) { t with pos := t.pos + 1 } := by
      simp [HtmlTokenizer.nextIter, hr, HtmlTokenizer.consumeNextInput, hc, hs,
        HtmlTokenizer.isEof, hcne, heof]
    have hnext : t.nextTok =
        TokResult.tok (HtmlToken.char (t.input[t.pos])) { t with pos := t.pos + 1 } := by
      obtain ⟨n, hn⟩ : ∃ n, 4 * (t.input.length + 1) + 2 * t.buf.length + 16 = n + 1 :=
        ⟨4 * (t.input.length + 1) + 2 * t.buf.length + 15, by omega⟩
      simp [HtmlTokenizer.nextTok, hle, hn, HtmlTokenizer.nextLoop, hiter]
    refine ⟨by simp [hnext], by simp [hnext], ?_⟩
    intro tok t' h
    rw [hnext] at h
    cases h
    exact ⟨hs, hr, by change t.pos + 1 ≤ t.input.length; omega, rfl⟩

/-- C10 amended, witness at the concrete tokenizer for input "ab". -/
theorem tokenizer_next_no_panic_without_lt_witness :
    (HtmlTokenizer.new "ab").nextTok ≠ TokResult.panic ∧
    (HtmlTokenizer.new "ab").nextTok ≠ TokResult.fuelOut ∧
    ∀ tok t', (HtmlTokenizer.new "ab").nextTok = TokResult.tok tok t' →
      (t'.state = TokState.data ∧ t'.reconsume = false ∧
       t'.pos ≤ t'.input.length ∧ t'.input = (HtmlTokenizer.new "ab").input) :=
  tokenizer_next_no_panic_without_lt (HtmlTokenizer.new "ab") rfl rfl
    (by decide) (by decide)

/-! ## HTML tree builder (saba_core/src/renderer/html/parser.rs)

The `Rc<RefCell<Node>>` graph of dom/node.rs is modelled as an arena: a list
of `NodeData` records addressed by index, with the document at index 0.
Strong and weak references alike become `Option Nat` indices, so the five
links of the source struct can be stated and updated exactly as the source
does. -/

/-- Embedding of `InsertionMode` (parser.rs). -/
inductive InsertionMode where
  | initial
  | beforeHtml
  | beforeHead
  | inHead
  | afterHead
  | inBody
  | text
  | afterBody
  | afterAfterBody
deriving DecidableEq, Repr

/-- One arena slot: the `Node` struct of dom/node.rs with its five links. -/
structure NodeData where
  kind : NodeKind
  parent : Option Nat
  firstChild : Option Nat
  lastChild : Option Nat
  prevSibling : Option Nat
  nextSibling : Option Nat
deriving DecidableEq, Repr

/-- Embedding of `Node::new`: all links null. -/
def NodeData.new (kind : NodeKind) : NodeData :=
  { kind := kind, parent := none, firstChild := none, lastChild := none,
    prevSibling := none, nextSibling := none }

/-- Embedding of `Node::get_element_kind`. -/
def NodeData.getElementKind (nd : NodeData) : Option ElementKind :=
  match nd.kind with
  | .element k _ => some k
  | _ => none

/-- Update the node at index `i` in the arena (no-op when out of range;
all reachable updates are in range). -/
def modifyNode (a : List NodeData) (i : Nat) (f : NodeData → NodeData) :
    List NodeData :=
  match a.get? i with
  | some nd => a.set i (f nd)
  | none => a

/-- Embedding of the `HtmlParser` struct: the window's document is arena
index 0 and the stack of open elements stores arena indices, most recent
first. -/
structure HtmlParser where
  arena : List NodeData
  mode : InsertionMode
  originalInsertionMode : InsertionMode
  stack : List Nat
  t : HtmlTokenizer
deriving DecidableEq, Repr

/-- Embedding of `HtmlParser::new`. -/
def HtmlParser.new (t : HtmlTokenizer) : HtmlParser :=
  { arena := [NodeData.new .document], mode := .initial,
    originalInsertionMode := .initial, stack := [], t := t }

/-- The last-sibling walk of `insert_element` (the `loop` over
`next_sibling` links), with fuel bounding the walk. -/
def lastSiblingIdx (arena : List NodeData) : Nat → Nat → Nat
  | 0, i => i
  | fuel + 1, i =>
    match (arena.get? i).bind (fun nd => nd.nextSibling) with
    | some j => lastSiblingIdx arena fuel j
    | none => i

/-- Embedding of `HtmlParser::insert_element` (parser.rs lines 71–123).
`Element::new` panics on an unrecognized tag, modelled as `none`. Note: when
the current node already has children, the source walks to the last sibling
and sets its `next_sibling` to the new node, but then sets the new node's
`previous_sibling` from `current.borrow().first_child()` — the FIRST child,
not the last sibling it just found. -/
def HtmlParser.insertElement (s : HtmlParser) (tag : String)
    (attributes : List Attribute) : Option HtmlParser :=
  match createElementKind tag attributes with
  | none => none
  | some kind =>
    let current := s.stack.headD 0
    let id := s.arena.length
    let node := NodeData.new kind
    let cur := (s.arena.get? current).getD (NodeData.new .document)
    let step1 :=
      match cur.firstChild with
      | some fc =>
        let last := lastSiblingIdx s.arena s.arena.length fc
        (modifyNode s.arena last (fun nd => { nd with nextSibling := some id }),
         { node with prevSibling := cur.firstChild })
      | none =>
        (modifyNode s.arena current (fun nd => { nd with firstChild := some id }),
         node)
    let arena2 := modifyNode step1.1 current (fun nd => { nd with lastChild := some id })
    let node2 := { step1.2 with parent := some current }
    some { s with arena := arena2 ++ [node2], stack := id :: s.stack }

/-- Embedding of `HtmlParser::pop_current_node`. -/
def HtmlParser.popCurrentNode (s : HtmlParser) (ek : ElementKind) :
    Bool × HtmlParser :=
  match s.stack with
  | [] => (false, s)
  | i :: rest =>
    if ((s.arena.get? i).bind NodeData.getElementKind) = some ek then
      (true, { s with stack := rest })
    else (false, s)

/-- Embedding of `HtmlParser::contain_in_stack`. -/
def HtmlParser.containInStack (s : HtmlParser) (ek : ElementKind) : Bool :=
  s.stack.any (fun i => ((s.arena.get? i).bind NodeData.getElementKind) = some ek)

/-- The popping loop of `pop_until`: pop until a node of kind `ek` has been
popped (that node is popped as well). -/
def popUntilList (arena : List NodeData) (ek : ElementKind) : List Nat → List Nat
  | [] => []
  | i :: rest =>
    if ((arena.get? i).bind NodeData.getElementKind) = some ek then rest
    else popUntilList arena ek rest

/-- Embedding of `HtmlParser::pop_until`; the failed `assert!` when the
stack does not contain the kind is modelled as `none`. -/
def HtmlParser.popUntil (s : HtmlParser) (ek : ElementKind) : Option HtmlParser :=
  if s.containInStack ek then
    some { s with stack := popUntilList s.arena ek s.stack }
  else none

/-- Embedding of `HtmlParser::insert_char` (parser.rs lines 177–227). When
the current node already has a first child, the source links the new text
node directly after the FIRST child (it never walks to the last sibling
here), and also sets `last_child` to the new node. -/
def HtmlParser.insertChar (s : HtmlParser) (c : Char) : HtmlParser :=
  match s.stack with
  | [] => s
  | current :: _ =>
    let cur := (s.arena.get? current).getD (NodeData.new .document)
    match cur.kind with
    | .text str =>
      { s with arena :=
          modifyNode s.arena current (fun nd => { nd with kind := .text (str.push c) }) }
    | _ =>
      if c = '\n' ∨ c = ' ' then s
      else
        let id := s.arena.length
        let node := NodeData.new (.text (String.mk [c]))
        let step1 :=
          match cur.firstChild with
          | some fc =>
            (modifyNode s.arena fc (fun nd => { nd with nextSibling := some id }),
             { node with prevSibling := some fc })
          | none =>
            (modifyNode s.arena current (fun nd => { nd with firstChild := some id }),
             node)
        let arena2 := modifyNode step1.1 current (fun nd => { nd with lastChild := some id })
        let node2 := { step1.2 with parent := some current }
        { s with arena := arena2 ++ [node2], stack := id :: s.stack }

/-- Outcome of one iteration of the `while` body of `construct_tree`. -/
inductive BuildStep where
  | ret (s : HtmlParser)
  | cont (s : HtmlParser) (tok : Option HtmlToken)
  | panic
deriving DecidableEq, Repr

/-- Fetch the next token (`self.t.next()`), updating the tokenizer held by
the builder; a tokenizer panic (or inner fuel exhaustion, unreachable on the
inputs considered) aborts. -/
def HtmlParser.fetchToken (s : HtmlParser) : Option (Option HtmlToken × HtmlParser) :=
  match s.t.nextTok with
  | .tok tok t' => some (some tok, { s with t := t' })
  | .none => some (none, s)
  | .panic => none
  | .fuelOut => none

/-- One iteration of the `while token.is_some()` body of
`HtmlParser::construct_tree` (parser.rs lines 230–522), given the current
token. Every arm mirrors the source: insertion-mode dispatch, the in-arm
`continue`s (with or without fetching a new token) and the fall-through code
after each inner `match`. In particular the InBody arm handles only EndTag
and Eof; StartTag and Char tokens fall through `_ => {}` and the loop
re-runs on the unchanged state and token. -/
def HtmlParser.constructStep (s : HtmlParser) (tok : HtmlToken) : BuildStep :=
  match s.mode with
  | .initial =>
    match tok with
    | .char _ =>
      match s.fetchToken with
      | some (tok', s') => .cont s' tok'
      | none => .panic
    | _ => .cont { s with mode := .beforeHtml } (some tok)
  | .beforeHtml =>
    match tok with
    | .char c =>
      if c = ' ' ∨ c = '\n' then
        match s.fetchToken with
        | some (tok', s') => .cont s' tok'
        | none => .panic
      else
        match s.insertElement "html" [] with
        | some s1 => .cont { s1 with mode := .beforeHead } (some tok)
        | none => .panic
    | .startTag tag _ attributes =>
      if tag = "html" then
        match s.insertElement tag attributes with
        | some s1 =>
          match ({ s1 with mode := .beforeHead }).fetchToken with
          | some (tok', s') => .cont s' tok'
          | none => .panic
        | none => .panic
      else
        match s.insertElement "html" [] with
        | some s1 => .cont { s1 with mode := .beforeHead } (some tok)
        | none => .panic
    | .eof => .ret s
    | .endTag _ =>
      match s.insertElement "html" [] with
      | some s1 => .cont { s1 with mode := .beforeHead } (some tok)
      | none => .panic
  | .beforeHead =>
    match tok with
    | .char c =>
      if c = ' ' ∨ c = '\n' then
        match s.fetchToken with
        | some (tok', s') => .cont s' tok'
        | none => .panic
      else
        match s.insertElement "head" [] with
        | some s1 => .cont { s1 with mode := .inHead } (some tok)
        | none => .panic
    | .startTag tag _ attributes =>
      if tag = "head" then
        match s.insertElement tag attributes with
        | some s1 =>
          match ({ s1 with mode := .inHead }).fetchToken with
          | some (tok', s') => .cont s' tok'
          | none => .panic
        | none => .panic
      else
        match s.insertElement "head" [] with
        | some s1 => .cont { s1 with mode := .inHead } (some tok)
        | none => .panic
    | .eof => .ret s
    | .endTag _ =>
      match s.insertElement "head" [] with
      | some s1 => .cont { s1 with mode := .inHead } (some tok)
      | none => .panic
  | .inHead =>
    match tok with
    | .char c =>
      if c = ' ' ∨ c = '\n' then
        match (s.insertChar c).fetchToken with
        | some (tok', s') => .cont s' tok'
        | none => .panic
      else
        match s.fetchToken with
        | some (tok', s') => .cont s' tok'
        | none => .panic
    | .startTag tag _ attributes =>
      if tag = "style" ∨ tag = "script" then
        match s.insertElement tag attributes with
        | some s1 =>
          let s2 := { s1 with originalInsertionMode := s1.mode, mode := .text }
          match s2.fetchToken with
          | some (tok', s') => .cont s' tok'
          | none => .panic
        | none => .panic
      else if tag = "body" then
        match s.popUntil .head with
        | some s1 => .cont { s1 with mode := .afterHead } (some tok)
        | none => .panic
      else
        match ElementKind.fromStr tag with
        | .ok _ =>
          match s.popUntil .head with
          | some s1 => .cont { s1 with mode := .afterHead } (some tok)
          | none => .panic
        | .error _ =>
          match s.fetchToken with
          | some (tok', s') => .cont s' tok'
          | none => .panic
    | .endTag tag =>
      if tag = "head" then
        match ({ s with mode := .afterHead }).fetchToken with
        | some (tok', s1) =>
          match s1.popUntil .head with
          | some s2 => .cont s2 tok'
          | none => .panic
        | none => .panic
      else
        match s.fetchToken with
        | some (tok', s') => .cont s' tok'
        | none => .panic
    | .eof => .ret s
  | .afterHead =>
    match tok with
    | .char c =>
      if c = ' ' ∨ c = '\n' then
        match (s.insertChar c).fetchToken with
        | some (tok', s') => .cont s' tok'
        | none => .panic
      else
        match s.insertElement "body" [] with
        | some s1 => .cont { s1 with mode := .inBody } (some tok)
        | none => .panic
    | .startTag tag _ attributes =>
      if tag = "body" then
        match s.insertElement tag attributes with
        | some s1 =>
          match s1.fetchToken with
          | some (tok', s') => .cont { s' with mode := .inBody } tok'
          | none => .panic
        | none => .panic
      else
        match s.insertElement "body" [] with
        | some s1 => .cont { s1 with mode := .inBody } (some tok)
        | none => .panic
    | .eof => .ret s
    | .endTag _ =>
      match s.insertElement "body" [] with
      | some s1 => .cont { s1 with mode := .inBody } (some tok)
      | none => .panic
  | .inBody =>
    match tok with
    | .endTag tag =>
      if tag = "body" then
        match ({ s with mode := .afterBody }).fetchToken with
        | some (tok', s1) =>
          if s1.containInStack .body then
            match s1.popUntil .body with
            | some s2 => .cont s2 tok'
            | none => .panic
          else .cont s1 tok'
        | none => .panic
      else if tag = "html" then
        match s.popCurrentNode .body with
        | (true, s1) =>
          let s2 := { s1 with mode := .afterBody }
          match s2.popCurrentNode .html with
          | (true, s3) => .cont s3 (some tok)
          | (false, _) => .panic
        | (false, s1) =>
          match s1.fetchToken with
          | some (tok', s') => .cont s' tok'
          | none => .panic
      else
        match s.fetchToken with
        | some (tok', s') => .cont s' tok'
        | none => .panic
    | .eof => .ret s
    | .startTag _ _ _ => .cont s (some tok)
    | .char _ => .cont s (some tok)
  | .text =>
    match tok with
    | .eof => .ret s
    | .endTag tag =>
      if tag = "style" then
        match s.popUntil .style with
        | some s1 =>
          match ({ s1 with mode := s1.originalInsertionMode }).fetchToken with
          | some (tok', s') => .cont s' tok'
          | none => .panic
        | none => .panic
      else if tag = "script" then
        match s.popUntil .script with
        | some s1 =>
          match ({ s1 with mode := s1.originalInsertionMode }).fetchToken with
          | some (tok', s') => .cont s' tok'
          | none => .panic
        | none => .panic
      else .cont { s with mode := s.originalInsertionMode } (some tok)
    | .char c =>
      match (s.insertChar c).fetchToken with
      | some (tok', s') => .cont s' tok'
      | none => .panic
    | .startTag _ _ _ => .cont { s with mode := s.originalInsertionMode } (some tok)
  | .afterBody =>
    match tok with
    | .char _ =>
      match s.fetchToken with
      | some (tok', s') => .cont s' tok'
      | none => .panic
    | .endTag tag =>
      if tag = "html" then
        match ({ s with mode := .afterAfterBody }).fetchToken with
        | some (tok', s') => .cont s' tok'
        | none => .panic
      else .cont s (some tok)
    | .eof => .ret s
    | .startTag _ _ _ => .cont s (some tok)
  | .afterAfterBody =>
    match tok with
    | .char _ =>
      match s.fetchToken with
      | some (tok', s') => .cont s' tok'
      | none => .panic
    | .eof => .ret s
    | _ => .cont { s with mode := .inBody } (some tok)

/-- Result of `construct_tree`: the final builder state (whose arena holds
the DOM), a panic, or fuel exhaustion of the `while` loop. -/
inductive BuildResult where
  | ok (s : HtmlParser)
  | panic
  | out
deriving DecidableEq, Repr

/-- The `while token.is_some()` loop of `construct_tree`, with fuel counting
loop iterations. -/
def HtmlParser.constructLoop : Nat → HtmlParser → Option HtmlToken → BuildResult
  | 0, _, _ => .out
  | fuel + 1, s, tok =>
    match tok with
    | none => .ok s
    | some tk =>
      match s.constructStep tk with
      | .ret s' => .ok s'
      | .panic => .panic
      | .cont s' tok' => HtmlParser.constructLoop fuel s' tok'

/-- Embedding of `HtmlParser::construct_tree` run on an input string: the
initial `self.t.next()` followed by the loop. -/
def constructTree (html : String) (fuel : Nat) : BuildResult :=
  match (HtmlParser.new (HtmlTokenizer.new html)).fetchToken with
  | some (tok, s1) => HtmlParser.constructLoop fuel s1 tok
  | none => .panic

/-- A result other than fuel exhaustion is stable under extra fuel. -/
theorem constructLoop_stable (fuel : Nat) (s : HtmlParser) (tok : Option HtmlToken)
    (h : HtmlParser.constructLoop fuel s tok ≠ .out) :
    HtmlParser.constructLoop (fuel + 1) s tok = HtmlParser.constructLoop fuel s tok := by
  induction fuel generalizing s tok with
  | zero => simp [HtmlParser.constructLoop] at h
  | succ n ih =>
    cases tok with
    | none => simp [HtmlParser.constructLoop]
    | some tk =>
      have hL : HtmlParser.constructLoop (n + 1) s (some tk) =
          match s.constructStep tk with
          | .ret s' => .ok s'
          | .panic => .panic
          | .cont s' tok' => HtmlParser.constructLoop n s' tok' := rfl
      have hL2 : HtmlParser.constructLoop (n + 1 + 1) s (some tk) =
          match s.constructStep tk with
          | .ret s' => .ok s'
          | .panic => .panic
          | .cont s' tok' => HtmlParser.constructLoop (n + 1) s' tok' := rfl
      rw [hL] at h
      rw [hL2, hL]
      cases hstep : s.constructStep tk with
      | ret s' => simp
      | panic => simp
      | cont s' tok' =>
        simp only [hstep] at h
        simp only []
        exact ih s' tok' h

/-- A result other than fuel exhaustion is stable under any larger fuel. -/
theorem constructLoop_stable_le (f g : Nat) (s : HtmlParser) (tok : Option HtmlToken)
    (hle : f ≤ g) (h : HtmlParser.constructLoop f s tok ≠ .out) :
    HtmlParser.constructLoop g s tok = HtmlParser.constructLoop f s tok := by
  induction g with
  | zero =>
    have : f = 0 := Nat.le_zero.mp hle
    subst this
    rfl
  | succ n ih =>
    rcases Nat.lt_or_ge f (n + 1) with hf | hf
    · have hfn : f ≤ n := Nat.lt_succ_iff.mp hf
      have he := ih hfn
      rw [← he] at h ⊢
      exact constructLoop_stable n s tok h
    · have : f = n + 1 := Nat.le_antisymm hle hf
      subst this
      rfl

/-- When one loop iteration leaves both the state and the token unchanged,
the loop never terminates: every fuel is exhausted. -/
theorem constructLoop_fixed (s : HtmlParser) (tok : HtmlToken)
    (h : s.constructStep tok = BuildStep.cont s (some tok)) :
    ∀ fuel, HtmlParser.constructLoop fuel s (some tok) = BuildResult.out := by
  intro fuel
  induction fuel with
  | zero => rfl
  | succ n ih =>
    rw [HtmlParser.constructLoop, h]
    exact ih

/-- If the loop reaches, after `k` iterations, a configuration that one
further iteration maps to itself (state and token both unchanged), then the
loop never terminates for any fuel. -/
theorem constructLoop_diverges (s : HtmlParser) (tok : HtmlToken) (k : Nat)
    (X : HtmlParser) (tokX : HtmlToken)
    (hreach : ∀ f, HtmlParser.constructLoop (f + k) s (some tok) =
      HtmlParser.constructLoop f X (some tokX))
    (hfix : X.constructStep tokX = BuildStep.cont X (some tokX)) :
    ∀ fuel, HtmlParser.constructLoop fuel s (some tok) = BuildResult.out := by
  intro fuel
  rcases Nat.lt_or_ge fuel k with hf | hf
  · by_contra hne
    have hst := constructLoop_stable_le fuel k s (some tok) (Nat.le_of_lt hf) hne
    have h0 : HtmlParser.constructLoop k s (some tok) = BuildResult.out := by
      have hr := hreach 0
      rw [Nat.zero_add] at hr
      rw [hr]
      exact constructLoop_fixed X tokX hfix 0
    rw [hst] at h0
    exact hne h0
  · have h1 := hreach (fuel - k)
    rw [Nat.sub_add_cancel hf] at h1
    rw [h1]
    exact constructLoop_fixed X tokX hfix _

/-- The builder state right after the initial token fetch on the input
`<p>hi</p>`: the tokenizer has consumed `<p>` and emitted its StartTag. -/
def pHiStart : HtmlParser :=
  { arena := [NodeData.new .document], mode := .initial,
    originalInsertionMode := .initial, stack := [],
    t := { state := .data, pos := 3, reconsume := false, latestToken := none,
           input := "<p>hi</p>".toList, buf := "" } }

/-- The configuration the builder reaches on `<p>hi</p>` after five loop
iterations: html, head and body synthesized, mode InBody, and the
StartTag "p" token still unconsumed. -/
def pHiStuck : HtmlParser :=
  { arena := [
      { kind := .document, parent := none, firstChild := some 1,
        lastChild := some 1, prevSibling := none, nextSibling := none },
      { kind := .element .html [], parent := some 0, firstChild := some 2,
        lastChild := some 3, prevSibling := none, nextSibling := none },
      { kind := .element .head [], parent := some 1, firstChild := none,
        lastChild := none, prevSibling := none, nextSibling := some 3 },
      { kind := .element .body [], parent := some 1, firstChild := none,
        lastChild := none, prevSibling := some 2, nextSibling := none }],
    mode := .inBody, originalInsertionMode := .initial, stack := [3, 1],
    t := { state := .data, pos := 3, reconsume := false, latestToken := none,
           input := "<p>hi</p>".toList, buf := "" } }

/-- C1: `construct_tree` does NOT terminate on every input. On `<p>hi</p>`
the builder reaches the InBody mode holding the StartTag "p" token; the
InBody arm has no StartTag handling (`_ => {}`), so the loop re-runs forever
on the unchanged state and token and the build exhausts any fuel. -/
theorem construct_tree_diverges_in_body :
    ∀ fuel, constructTree "<p>hi</p>" fuel = BuildResult.out := by
  intro fuel
  show HtmlParser.constructLoop fuel pHiStart (some (HtmlToken.startTag "p" false [])) =
    BuildResult.out
  exact constructLoop_diverges pHiStart (HtmlToken.startTag "p" false []) 5
    pHiStuck (HtmlToken.startTag "p" false []) (fun f => rfl) (by decide) fuel

/-- The builder state right after the initial token fetch on the full S1
input `<html><head></head><body><p>hi</p></body></html>`. -/
def s1Start : HtmlParser :=
  { arena := [NodeData.new .document], mode := .initial,
    originalInsertionMode := .initial, stack := [],
    t := { state := .data, pos := 6, reconsume := false, latestToken := none,
           input := "<html><head></head><body><p>hi</p></body></html>".toList,
           buf := "" } }

/-- The configuration reached on the S1 input after five loop iterations:
html, head and body opened as written, mode InBody, and the StartTag "p"
token unconsumed (the tokenizer cursor sits after `<p>`). -/
def s1Stuck : HtmlParser :=
  { arena := [
      { kind := .document, parent := none, firstChild := some 1,
        lastChild := some 1, prevSibling := none, nextSibling := none },
      { kind := .element .html [], parent := some 0, firstChild := some 2,
        lastChild := some 3, prevSibling := none, nextSibling := none },
      { kind := .element .head [], parent := some 1, firstChild := none,
        lastChild := none, prevSibling := none, nextSibling := some 3 },
      { kind := .element .body [], parent := some 1, firstChild := none,
        lastChild := none, prevSibling := some 2, nextSibling := none }],
    mode := .inBody, originalInsertionMode := .initial, stack := [3, 1],
    t := { state := .data, pos := 28, reconsume := false, latestToken := none,
           input := "<html><head></head><body><p>hi</p></body></html>".toList,
           buf := "" } }

/-- C2: in the InBody mode no StartTag is ever inserted and no Char is ever
appended — the arm handles only EndTag and Eof. Consequently even the fully
explicit input `<html><head></head><body><p>hi</p></body></html>` never
yields a DOM at all: on reaching InBody with the StartTag "p" token the loop
re-runs forever on the unchanged configuration. -/
theorem construct_tree_in_body_inserts_nothing :
    ∀ fuel,
      constructTree "<html><head></head><body><p>hi</p></body></html>" fuel =
        BuildResult.out := by
  intro fuel
  show HtmlParser.constructLoop fuel s1Start (some (HtmlToken.startTag "html" false [])) =
    BuildResult.out
  exact constructLoop_diverges s1Start (HtmlToken.startTag "html" false []) 5
    s1Stuck (HtmlToken.startTag "p" false []) (fun f => rfl) (by decide) fuel

/-- The DOM arena produced by a terminating parse (empty when the build
panicked or ran out of fuel). -/
def buildArena (r : BuildResult) : List NodeData :=
  match r with
  | .ok s => s.arena
  | _ => []

/-- Arena lookup with the document as default (total variant of indexing,
used only at indices that exist). -/
def nodeAt (a : List NodeData) (i : Nat) : NodeData :=
  (a.get? i).getD (NodeData.new .document)

/-- C4: evaluating `construct_tree` on
`<style>a</style><script>b</script><style>c</style>` terminates, and the
head element (index 2) ends up with the three element children 3, 5, 7
chained by `next_sibling` — but the third child's `previous_sibling` points
at the FIRST child (3), not at its actual predecessor (5), because
`insert_element` always records `current.first_child()` as the new node's
previous sibling. -/
theorem insert_element_breaks_prev_sibling :
    (buildArena (constructTree "<style>a</style><script>b</script><style>c</style>" 300)).length = 9 ∧
    (nodeAt (buildArena (constructTree "<style>a</style><script>b</script><style>c</style>" 300)) 2).firstChild = some 3 ∧
    (nodeAt (buildArena (constructTree "<style>a</style><script>b</script><style>c</style>" 300)) 3).nextSibling = some 5 ∧
    (nodeAt (buildArena (constructTree "<style>a</style><script>b</script><style>c</style>" 300)) 5).nextSibling = some 7 ∧
    (nodeAt (buildArena (constructTree "<style>a</style><script>b</script><style>c</style>" 300)) 7).nextSibling = none ∧
    (nodeAt (buildArena (constructTree "<style>a</style><script>b</script><style>c</style>" 300)) 2).lastChild = some 7 ∧
    (nodeAt (buildArena (constructTree "<style>a</style><script>b</script><style>c</style>" 300)) 7).prevSibling = some 3 ∧
    (nodeAt (buildArena (constructTree "<style>a</style><script>b</script><style>c</style>" 300)) 7).prevSibling ≠ some 5 := by
  decide

/-! ## DOM tree view and DOM API (saba_core/src/renderer/dom/api.rs)

For the read-only walks of api.rs and of the layout builder, the DOM is
viewed as a pure tree: a node's `first_child` chain is its list of children
and `next_sibling` positions are the remainders of such lists. -/

/-- A DOM node with its children, the pure-tree view of `Node`. -/
inductive DomTree where
  | mk (kind : NodeKind) (children : List DomTree)

/-- Kind of a tree node. -/
def DomTree.kind : DomTree → NodeKind
  | .mk k _ => k

/-- Children of a tree node. -/
def DomTree.children : DomTree → List DomTree
  | .mk _ c => c

/-- Embedding of `get_element_by_id` (dom/api.rs) on the tree view. The
argument list is the sibling chain starting at the source's `node`; the
node itself is checked first, then the child subtree (`result1`), then the
following siblings (`result2`), preferring `result1` exactly as the source
does. The fuel only bounds the recursion depth (the source recursion is
structural on the tree; any fuel at least the node count is enough). -/
def getElementByIdForest : Nat → List DomTree → String → Option DomTree
  | 0, _, _ => none
  | _, [], _ => none
  | fuel + 1, .mk kind children :: rest, idName =>
    let hasId :=
      match kind with
      | .element _ attrs => attrs.any (fun a => a.name == "id" && a.value == idName)
      | _ => false
    if hasId then some (.mk kind children)
    else
      let result1 := getElementByIdForest fuel children idName
      let result2 := getElementByIdForest fuel rest idName
      match result1 with
      | none => result2
      | some r => some r

/-! ## JavaScript runtime (saba_core/src/renderer/js/runtime.rs) -/

/-- Embedding of the JS AST `Node` enum (js/ast.rs). -/
inductive JsNode where
  | expressionStatement (expr : Option JsNode)
  | additiveExpression (operator : Char) (left : Option JsNode) (right : Option JsNode)
  | assignmentExpression (operator : Char) (left : Option JsNode) (right : Option JsNode)
  | memberExpression (object : Option JsNode) (property : Option JsNode)
  | numericLiteral (value : Nat)
  | variableDeclaration (declarations : List (Option JsNode))
  | variableDeclarator (id : Option JsNode) (init : Option JsNode)
  | identifier (name : String)
  | stringLiteral (value : String)
  | blockStatement (body : List (Option JsNode))
  | returnStatement (argument : Option JsNode)
  | functionDeclaration (id : Option JsNode) (params : List (Option JsNode)) (body : Option JsNode)
  | callExpression (callee : Option JsNode) (arguments : List (Option JsNode))

/-- Embedding of `RuntimeValue` (runtime.rs); `Number` is u64, modelled as
`Nat` (no claim exercises overflow). -/
inductive RuntimeValue where
  | number (n : Nat)
  | stringLiteral (s : String)
  | htmlElement (object : DomTree) (property : Option String)

/-- Embedding of `Display for RuntimeValue` (`to_string`). The `{:?}` debug
dump of the node behind an HtmlElement is abstracted to a fixed marker (no
claim depends on its exact text). -/
def RuntimeValue.toDisplay : RuntimeValue → String
  | .number n => toString n
  | .stringLiteral s => s
  | .htmlElement _ _ => "HtmlElement: <node>"

/-- Embedding of `Add for RuntimeValue`. -/
def RuntimeValue.add (a b : RuntimeValue) : RuntimeValue :=
  match a, b with
  | .number x, .number y => .number (x + y)
  | _, _ => .stringLiteral (a.toDisplay ++ b.toDisplay)

/-- Embedding of `Sub for RuntimeValue` (`u64::MIN` is the NaN sentinel). -/
def RuntimeValue.sub (a b : RuntimeValue) : RuntimeValue :=
  match a, b with
  | .number x, .number y => .number (x - y)
  | _, _ => .number 0

/-- The comparisons the source performs on runtime values
(`callee_value == RuntimeValue::StringLiteral(..)` and likewise in
`call_browser_api`) always have a string literal on the right; this mirrors
the derived `PartialEq` restricted to that use. -/
def RuntimeValue.isStr (v : RuntimeValue) (s : String) : Bool :=
  match v with
  | .stringLiteral t => t == s
  | _ => false

/-- Embedding of `Environment` (runtime.rs): the ordered binding list of the
scope (`variables` in the source; spelled `vars` here since that word is
reserved) and the optional outer scope. The source's
`outer : Option<Rc<RefCell<Environment>>>` is inlined into the two
constructors (`root` for `None`, `scope` for `Some`). -/
inductive Environment where
  | root (vars : List (String × Option RuntimeValue))
  | scope (vars : List (String × Option RuntimeValue)) (outer : Environment)

/-- The binding list of the current scope. -/
def Environment.vars : Environment → List (String × Option RuntimeValue)
  | .root v => v
  | .scope v _ => v

/-- Replace the binding list of the current scope, keeping the outer
chain. -/
def Environment.setVars : Environment → List (String × Option RuntimeValue) → Environment
  | .root _, v => .root v
  | .scope _ o, v => .scope v o

/-- Embedding of `Environment::get_variable`: scan the own bindings in
order, else recurse into the outer scope. -/
def Environment.getVariable : Environment → String → Option RuntimeValue
  | .root vars, name =>
    match vars.find? (fun v => v.1 == name) with
    | some v => v.2
    | none => none
  | .scope vars outer, name =>
    match vars.find? (fun v => v.1 == name) with
    | some v => v.2
    | none => outer.getVariable name

/-- Embedding of `Environment::add_variable` (push at the end of the current
scope's list). -/
def Environment.addVariable (e : Environment) (name : String)
    (value : Option RuntimeValue) : Environment :=
  e.setVars (e.vars ++ [(name, value)])

/-- The `variables.remove(i)` of `update_variable` for the first index whose
name matches (`none` when no binding matches). -/
def removeFirstVar : List (String × Option RuntimeValue) → String →
    Option (List (String × Option RuntimeValue))
  | [], _ => none
  | v :: rest, name =>
    if v.1 == name then some rest
    else
      match removeFirstVar rest name with
      | some rest' => some (v :: rest')
      | none => none

/-- Embedding of `Environment::update_variable`: remove the first matching
binding of the CURRENT scope and push the new value at the end; when the
current scope has no such binding the call does nothing — the outer scope is
never consulted. -/
def Environment.updateVariable (e : Environment) (name : String)
    (value : Option RuntimeValue) : Environment :=
  match removeFirstVar e.vars name with
  | some vars' => e.setVars (vars' ++ [(name, value)])
  | none => e

/-- The outer scope of an environment, with a default (used to pop the call
scope when a `CallExpression` returns; in the source the caller simply keeps
its own `Rc` to the outer environment). -/
def Environment.outerD : Environment → Environment → Environment
  | .scope _ o, _ => o
  | .root _, d => d

/-- Embedding of the `Function` struct (runtime.rs). -/
structure Function where
  id : String
  params : List (Option JsNode)
  body : Option JsNode

/-- Embedding of the `JsRuntime` struct: the DOM root and the user-function
table (the global environment is passed to `eval` explicitly, as the
repository's own tests do). -/
structure JsRuntime where
  domRoot : DomTree
  functions : List Function

/-- The function-lookup loop of the CallExpression arm: iterate the whole
table keeping the LAST match. -/
def findFunction (fs : List Function) (callee : RuntimeValue) : Option Function :=
  fs.foldl (fun acc func => if callee.isStr func.id then some func else acc) none

/-- Result of `JsRuntime::eval`: the value (if any) together with the
updated function table and environment chain, a panic, or fuel
exhaustion. -/
inductive EvalRes where
  | ok (v : Option RuntimeValue) (rt : JsRuntime) (env : Environment)
  | panic
  | fuelOut

/-- Sequential evaluation of a statement list (the `for` loops of the
`VariableDeclaration` and `BlockStatement` arms): thread state, keep the
last result. -/
def evalSeqWith (evalF : JsRuntime → Option JsNode → Environment → EvalRes) :
    JsRuntime → List (Option JsNode) → Environment → EvalRes
  | rt, [], env => .ok none rt env
  | rt, stmt :: rest, env =>
    match evalF rt stmt env with
    | .ok v rt1 env1 =>
      match rest with
      | [] => .ok v rt1 env1
      | _ => evalSeqWith evalF rt1 rest env1
    | r => r

/-- The argument-binding loop of the CallExpression arm: for each
(parameter, argument) pair evaluate the parameter node in the callee scope;
when it yields a string literal, bind it there to the evaluated argument. -/
def evalBindArgsWith (evalF : JsRuntime → Option JsNode → Environment → EvalRes) :
    JsRuntime → List (Option JsNode × Option JsNode) → Environment → EvalRes
  | rt, [], env => .ok none rt env
  | rt, (param, item) :: rest, env =>
    match evalF rt param env with
    | .ok (some (.stringLiteral name)) rt1 env1 =>
      match evalF rt1 item env1 with
      | .ok itemVal rt2 env2 => evalBindArgsWith evalF rt2 rest (env2.addVariable name itemVal)
      | r => r
    | .ok _ rt1 env1 => evalBindArgsWith evalF rt1 rest env1
    | r => r

/-- Embedding of `JsRuntime::eval` (runtime.rs lines 113–272), with fuel for
the non-structural recursion into function bodies. Interior mutability is
replaced by threading: each call returns the updated function table and the
updated environment chain it was handed (`update_variable`/`add_variable`
only ever touch the head scope of the chain, and a CallExpression pops its
fresh scope on return). Note the CallExpression arm: exactly as in the
source it never consults `call_browser_api`, evaluates the callee in the NEW
scope, panics when the user-function lookup misses, and asserts the arity
matches. -/
def eval : Nat → JsRuntime → Option JsNode → Environment → EvalRes
  | 0, _, _, _ => .fuelOut
  | fuel + 1, rt, node, env =>
    match node with
    | none => .ok none rt env
    | some (JsNode.expressionStatement expr) => eval fuel rt expr env
    | some (JsNode.additiveExpression operator left right) =>
      match eval fuel rt left env with
      | .ok (some leftValue) rt1 env1 =>
        match eval fuel rt1 right env1 with
        | .ok (some rightValue) rt2 env2 =>
          if operator = '+' then .ok (some (leftValue.add rightValue)) rt2 env2
          else if operator = '-' then .ok (some (leftValue.sub rightValue)) rt2 env2
          else .ok none rt2 env2
        | .ok none rt2 env2 => .ok none rt2 env2
        | r => r
      | .ok none rt1 env1 => .ok none rt1 env1
      | r => r
    | some (JsNode.assignmentExpression operator left right) =>
      if operator ≠ '=' then .ok none rt env
      else
        match left with
        | some (JsNode.identifier id) =>
          match eval fuel rt right env with
          | .ok newValue rt1 env1 => .ok none rt1 (env1.updateVariable id newValue)
          | r => r
        | _ => .ok none rt env
    | some (JsNode.memberExpression object property) =>
      match eval fuel rt object env with
      | .ok (some objectValue) rt1 env1 =>
        match eval fuel rt1 property env1 with
        | .ok (some propertyValue) rt2 env2 =>
          .ok (some ((objectValue.add (.stringLiteral ".")).add propertyValue)) rt2 env2
        | .ok none rt2 env2 => .ok (some objectValue) rt2 env2
        | r => r
      | .ok none rt1 env1 => .ok none rt1 env1
      | r => r
    | some (JsNode.numericLiteral value) => .ok (some (.number value)) rt env
    | some (JsNode.variableDeclaration declarations) =>
      match evalSeqWith (eval fuel) rt declarations env with
      | .ok _ rt1 env1 => .ok none rt1 env1
      | r => r
    | some (JsNode.variableDeclarator id init) =>
      match id with
      | some (JsNode.identifier idName) =>
        match eval fuel rt init env with
        | .ok initVal rt1 env1 => .ok none rt1 (env1.addVariable idName initVal)
        | r => r
      | _ => .ok none rt env
    | some (JsNode.identifier name) =>
      match env.getVariable name with
      | some v => .ok (some v) rt env
      | none => .ok (some (.stringLiteral name)) rt env
    | some (JsNode.stringLiteral value) => .ok (some (.stringLiteral value)) rt env
    | some (JsNode.blockStatement body) => evalSeqWith (eval fuel) rt body env
    | some (JsNode.returnStatement argument) => eval fuel rt argument env
    | some (JsNode.functionDeclaration id params body) =>
      match eval fuel rt id env with
      | .ok (some (.stringLiteral idName)) rt1 env1 =>
        .ok none { rt1 with functions := rt1.functions ++ [⟨idName, params, body⟩] } env1
      | .ok _ rt1 env1 => .ok none rt1 env1
      | r => r
    | some (JsNode.callExpression callee arguments) =>
      match eval fuel rt callee (Environment.scope [] env) with
      | .ok (some calleeValue) rt1 newEnv1 =>
        match findFunction rt1.functions calleeValue with
        | none => .panic
        | some function =>
          if arguments.length ≠ function.params.length then .panic
          else
            match evalBindArgsWith (eval fuel) rt1 (function.params.zip arguments) newEnv1 with
            | .ok _ rt2 newEnv2 =>
              match eval fuel rt2 function.body newEnv2 with
              | .ok v rt3 newEnv3 => .ok v rt3 (newEnv3.outerD env)
              | r => r
            | r => r
      | .ok none rt1 newEnv1 => .ok none rt1 (newEnv1.outerD env)
      | r => r

/-- Result of `call_browser_api`: the source's `(bool, Option<RuntimeValue>)`
with the threaded state, or a panic / fuel exhaustion from the argument
evaluation. -/
inductive ApiRes where
  | ok (called : Bool) (v : Option RuntimeValue) (rt : JsRuntime) (env : Environment)
  | panic
  | fuelOut

/-- Embedding of `JsRuntime::call_browser_api` (runtime.rs lines 283–310):
the browser-API table. It handles `document.getElementById` by evaluating
the first argument (`&arguments[0]`: indexing an empty vector panics),
searching the DOM depth-first for a matching "id" attribute and returning an
HtmlElement or `(true, None)`. This function is DEFINED in the source but
never invoked from `eval`. -/
def callBrowserApi (fuel : Nat) (rt : JsRuntime) (func : RuntimeValue)
    (arguments : List (Option JsNode)) (env : Environment) : ApiRes :=
  if func.isStr "document.getElementById" then
    match arguments.get? 0 with
    | none => .panic
    | some arg0 =>
      match eval fuel rt arg0 env with
      | .ok (some arg) rt1 env1 =>
        match getElementByIdForest fuel [rt1.domRoot] arg.toDisplay with
        | some target => .ok true (some (.htmlElement target none)) rt1 env1
        | none => .ok true none rt1 env1
      | .ok none rt1 env1 => .ok true none rt1 env1
      | .panic => .panic
      | .fuelOut => .fuelOut
  else .ok false none rt env

/-- The DOM for S6: a document whose body holds `<p id="t">x</p>`. -/
def c3Dom : DomTree :=
  .mk .document [.mk (.element .body []) [.mk (.element .p [⟨"id", "t"⟩]) [.mk (.text "x") []]]]

/-- The `<p id="t">` element inside `c3Dom`. -/
def c3P : DomTree := .mk (.element .p [⟨"id", "t"⟩]) [.mk (.text "x") []]

/-- The AST of `document.getElementById("t")`. -/
def c3Call : JsNode :=
  .callExpression (some (.memberExpression (some (.identifier "document"))
    (some (.identifier "getElementById")))) [some (.stringLiteral "t")]

/-- C3: the CallExpression arm never attempts the built-in table. Evaluating
`document.getElementById("t")` (empty function table, DOM containing
`<p id="t">`) PANICS — the callee string reaches the user-function lookup,
which misses and hits the `panic!`. The `call_browser_api` table, which the
arm never consults, would have answered: it returns the HtmlElement of the
first matching element, and `(true, None)` when the id is absent. -/
theorem call_expression_never_calls_browser_api :
    eval 10 ⟨c3Dom, []⟩ (some c3Call) (Environment.root []) = EvalRes.panic ∧
    callBrowserApi 10 ⟨c3Dom, []⟩ (RuntimeValue.stringLiteral "document.getElementById")
      [some (JsNode.stringLiteral "t")] (Environment.root []) =
      ApiRes.ok true (some (RuntimeValue.htmlElement c3P none)) ⟨c3Dom, []⟩
        (Environment.root []) ∧
    callBrowserApi 10 ⟨c3Dom, []⟩ (RuntimeValue.stringLiteral "document.getElementById")
      [some (JsNode.stringLiteral "missing")] (Environment.root []) =
      ApiRes.ok true none ⟨c3Dom, []⟩ (Environment.root []) :=
  ⟨rfl, rfl, rfl⟩

/-- The environment for the C6 counterexample: an inner scope with no
bindings whose outer (global) scope binds `a` to 42. -/
def c6Env : Environment :=
  Environment.scope [] (Environment.root [("a", some (RuntimeValue.number 42))])

/-- C6 counterexample: evaluating the assignment `a = 1` in a scope that
does not itself bind `a` leaves the environment COMPLETELY unchanged —
`update_variable` never follows the outer link, so the global binding keeps
42 and a subsequent lookup of `a` still yields 42, not the assigned 1. -/
theorem assignment_ignores_outer_binding :
    eval 5 ⟨.mk .document [], []⟩
      (some (JsNode.assignmentExpression '=' (some (JsNode.identifier "a"))
        (some (JsNode.numericLiteral 1)))) c6Env =
      EvalRes.ok none ⟨.mk .document [], []⟩ c6Env ∧
    c6Env.getVariable "a" = some (RuntimeValue.number 42) ∧
    some (RuntimeValue.number 42) ≠ some (RuntimeValue.number 1) := by
  refine ⟨rfl, rfl, ?_⟩
  intro h
  have h2 : (42 : Nat) = 1 := by
    injection h with h1
    injection h1
  omega

/-- A successful lookup in the current scope's list decides
`get_variable` regardless of the outer chain. -/
theorem getVariable_found (e : Environment) (name : String)
    (p : String × Option RuntimeValue)
    (hf : e.vars.find? (fun v => v.1 == name) = some p) :
    e.getVariable name = p.2 := by
  cases e with
  | root vars =>
    simp only [Environment.vars] at hf
    simp [Environment.getVariable, hf]
  | scope vars outer =>
    simp only [Environment.vars] at hf
    simp [Environment.getVariable, hf]

/-- When a scope's binding list holds `x` exactly once, the removal step of
`update_variable` finds it and the remainder binds `x` nowhere. -/
theorem removeFirstVar_of_unique (vars : List (String × Option RuntimeValue)) (x : String)
    (h : (vars.filter (fun p => p.1 == x)).length = 1) :
    ∃ l, removeFirstVar vars x = some l ∧ l.filter (fun p => p.1 == x) = [] := by
  induction vars with
  | nil => simp at h
  | cons hd tl ih =>
    by_cases hx : hd.1 = x
    · have hb : (hd.1 == x) = true := by simp [hx]
      refine ⟨tl, by simp [removeFirstVar, hb], ?_⟩
      rw [List.filter_cons_of_pos (by simp [hb])] at h
      have h0 : (tl.filter (fun p => p.1 == x)).length = 0 := by
        simp only [List.length_cons] at h
        omega
      exact List.length_eq_zero.mp h0
    · have hb : (hd.1 == x) = false := by simp [hx]
      rw [List.filter_cons_of_neg (by simp [hb])] at h
      obtain ⟨l, hrm, hfil⟩ := ih h
      refine ⟨hd :: l, ?_, ?_⟩
      · simp [removeFirstVar, hb, hrm]
      · rw [List.filter_cons_of_neg (by simp [hb])]
        exact hfil

/-- Lookup after appending a binding of `x` to a list that binds `x`
nowhere finds the appended binding. -/
theorem find?_append_of_not_bound (l : List (String × Option RuntimeValue)) (x : String)
    (val : Option RuntimeValue) (hfil : l.filter (fun p => p.1 == x) = []) :
    (l ++ [(x, val)]).find? (fun v => v.1 == x) = some (x, val) := by
  induction l with
  | nil => simp [List.find?]
  | cons hd tl ih =>
    have hb : (hd.1 == x) = false := by
      by_contra hc
      have hbt : (hd.1 == x) = true := by
        cases hbe : (hd.1 == x) with
        | true => rfl
        | false => exact absurd hbe hc
      rw [List.filter_cons_of_pos (by simp [hbt])] at hfil
      cases hfil
    rw [List.filter_cons_of_neg (by simp [hb])] at hfil
    simpa [List.find?, hb] using ih hfil

/-- C6 amended: assignment with `=` to identifier `x` rewrites the binding
only in the scope on which `eval` is invoked (the current scope); the outer
chain is never followed. When the current scope binds `x` exactly once, the
assignment replaces that binding and a subsequent lookup from the same scope
yields the assigned value. -/
theorem assignment_updates_current_scope (n : Nat) (e : Environment)
    (x : String) (v : Nat) (rt : JsRuntime)
    (hone : (e.vars.filter (fun p => p.1 == x)).length = 1) :
    ∃ l, eval (n + 2) rt
        (some (JsNode.assignmentExpression '=' (some (JsNode.identifier x))
          (some (JsNode.numericLiteral v)))) e =
        EvalRes.ok none rt (e.setVars (l ++ [(x, some (RuntimeValue.number v))])) ∧
      (e.setVars (l ++ [(x, some (RuntimeValue.number v))])).getVariable x =
        some (RuntimeValue.number v) := by
  obtain ⟨l, hrm, hfil⟩ := removeFirstVar_of_unique e.vars x hone
  refine ⟨l, ?_, ?_⟩
  · have h1 : eval (n + 2) rt
        (some (JsNode.assignmentExpression '=' (some (JsNode.identifier x))
          (some (JsNode.numericLiteral v)))) e =
        EvalRes.ok none rt (e.updateVariable x (some (RuntimeValue.number v))) := rfl
    rw [h1]
    simp [Environment.updateVariable, hrm]
  · have hf := find?_append_of_not_bound l x (some (RuntimeValue.number v)) hfil
    refine getVariable_found _ x (x, some (RuntimeValue.number v)) ?_
    cases e <;> simpa [Environment.setVars, Environment.vars] using hf

/-- C6 amended, witness: assigning `a = 7` in a scope binding `a` once. -/
theorem assignment_updates_current_scope_witness :
    ∃ l, eval 3 ⟨.mk .document [], []⟩
        (some (JsNode.assignmentExpression '=' (some (JsNode.identifier "a"))
          (some (JsNode.numericLiteral 7))))
        (Environment.root [("a", some (RuntimeValue.number 0))]) =
        EvalRes.ok none ⟨.mk .document [], []⟩
          ((Environment.root [("a", some (RuntimeValue.number 0))]).setVars
            (l ++ [("a", some (RuntimeValue.number 7))])) ∧
      ((Environment.root [("a", some (RuntimeValue.number 0))]).setVars
          (l ++ [("a", some (RuntimeValue.number 7))])).getVariable "a" =
        some (RuntimeValue.number 7) :=
  assignment_updates_current_scope 1 (Environment.root [("a", some (RuntimeValue.number 0))])
    "a" 7 ⟨.mk .document [], []⟩ (by decide)

/-! ## Layout constants and computed style

`constants.rs` and `computed_style.rs` are referenced by the layout code but
are not under src/, so they are modelled from the spec. -/

/-- Modelled from the spec: the layout constants (constants.rs is not under
src/). Section 6 fixes their names and requires consistency between sizing
and painting but calls their numeric values tuning parameters; we take the
content area to be the window minus the padding on both sides, with
representative values. Theorems that depend only on relations between the
constants state those relations explicitly. -/
def WINDOW_WIDTH : Int := 600

/-- Modelled from the spec (see `WINDOW_WIDTH`). -/
def WINDOW_PADDING : Int := 5

/-- Modelled from the spec (see `WINDOW_WIDTH`): the content area sits
inside the window. -/
def CONTENT_AREA_WIDTH : Int := WINDOW_WIDTH - 2 * WINDOW_PADDING

/-- Modelled from the spec (see `WINDOW_WIDTH`). -/
def CHAR_WIDTH : Int := 8

/-- Modelled from the spec (see `WINDOW_WIDTH`). -/
def CHAR_HEIGHT_WITH_PADDING : Int := 20

/-- Modelled from the spec: colors (computed_style.rs is not under src/): a
named color (at least the six attested names) or a `#RRGGBB` code. -/
inductive Color where
  | named (name : String)
  | code (c : String)
deriving DecidableEq, Repr

/-- Modelled from the spec: the white fallback. -/
def Color.white : Color := .named "white"

/-- Modelled from the spec: the black fallback. -/
def Color.black : Color := .named "black"

/-- Modelled from the spec: `Color::from_name` accepts the attested named
colors and reports an error otherwise. -/
def Color.fromName (s : String) : Except String Color :=
  if s = "black" ∨ s = "white" ∨ s = "red" ∨ s = "green" ∨ s = "blue" ∨ s = "grey"
  then .ok (.named s) else .error s

/-- Modelled from the spec: `Color::from_code` accepts `#RRGGBB` codes. -/
def Color.fromCode (s : String) : Except String Color :=
  if s.startsWith "#" ∧ s.length = 7 then .ok (.code s) else .error s

/-- Modelled from the spec: the display property values. -/
inductive DisplayType where
  | block
  | inline
  | displayNone
deriving DecidableEq, Repr

/-- Modelled from the spec: `DisplayType::from_str` accepts block, inline
and none. -/
def DisplayType.fromStr (s : String) : Except String DisplayType :=
  if s = "block" then .ok .block
  else if s = "inline" then .ok .inline
  else if s = "none" then .ok .displayNone
  else .error s

/-- Modelled from the spec: the font sizes. -/
inductive FontSize where
  | medium
  | xLarge
  | xxLarge
deriving DecidableEq, Repr

/-- Modelled from the spec: text decoration. -/
inductive TextDecoration where
  | none
  | underline
deriving DecidableEq, Repr

/-- Modelled from the spec: `ComputedStyle` with every property optional
until defaulting fills it. -/
structure ComputedStyle where
  backgroundColor : Option Color
  color : Option Color
  display : Option DisplayType
  fontSize : Option FontSize
  textDecoration : Option TextDecoration
deriving DecidableEq, Repr

/-- Modelled from the spec: `ComputedStyle::new` (everything unset). -/
def ComputedStyle.new : ComputedStyle := ⟨none, none, none, none, none⟩

/-- The `display()` getter; after defaulting the field is always set, so the
default is never observed. -/
def ComputedStyle.displayD (s : ComputedStyle) : DisplayType := s.display.getD .block

/-- The `font_size()` getter (same remark as `displayD`). -/
def ComputedStyle.fontSizeD (s : ComputedStyle) : FontSize := s.fontSize.getD .medium

/-! ## CSSOM types (saba_core/src/renderer/css/cssom.rs) -/

/-- Embedding of the CSS `ComponentValue` (an alias of `CssToken`); only the
variants the cascade inspects carry data (the `Number` payload is f64 in the
source and is never read by the cascade, so it is not modelled). -/
inductive ComponentValue where
  | ident (s : String)
  | hashToken (s : String)
  | stringToken (s : String)
  | numberTok
  | delim (c : Char)
deriving DecidableEq, Repr

/-- Embedding of `Selector` (cssom.rs). -/
inductive Selector where
  | typeSelector (s : String)
  | classSelector (s : String)
  | idSelector (s : String)
  | unknownSelector
deriving DecidableEq, Repr

/-- Embedding of `Declaration` (cssom.rs). -/
structure Declaration where
  property : String
  value : ComponentValue
deriving DecidableEq, Repr

/-- Embedding of `QualifiedRule` (cssom.rs). -/
structure QualifiedRule where
  selector : Selector
  declarations : List Declaration
deriving DecidableEq, Repr

/-- Embedding of `StyleSheet` (cssom.rs). -/
structure StyleSheet where
  rules : List QualifiedRule
deriving DecidableEq, Repr

/-! ## Layout objects (saba_core/src/renderer/layout/layout_object.rs) -/

/-- Embedding of `LayoutObjectKind`. -/
inductive LayoutObjectKind where
  | block
  | inline
  | text
deriving DecidableEq, Repr

/-- Embedding of `LayoutSize`. -/
structure LayoutSize where
  width : Int
  height : Int
deriving DecidableEq, Repr

/-- Embedding of `LayoutObject::is_node_selected` (layout_object.rs lines
197–226), matching a selector against the object's DOM node kind. -/
def isNodeSelected (nodeKind : NodeKind) (selector : Selector) : Bool :=
  match nodeKind with
  | .element e attrs =>
    match selector with
    | .typeSelector typeName => e.str == typeName
    | .classSelector className =>
      attrs.any (fun a => a.name == "class" && a.value == className)
    | .idSelector idName =>
      attrs.any (fun a => a.name == "id" && a.value == idName)
    | .unknownSelector => false
  | _ => false

/-- Embedding of `LayoutObject::cascading_style` (layout_object.rs lines
232–283): apply each declaration in order; only background-color, color and
display are honored, with the white/black fallbacks on color errors and the
DisplayNone fallback on display errors. -/
def cascadingStyle (style : ComputedStyle) (declarations : List Declaration) :
    ComputedStyle :=
  declarations.foldl (fun st declaration =>
    if declaration.property = "background-color" then
      match declaration.value with
      | .ident value =>
        let color := match Color.fromName value with
          | .ok c => c
          | .error _ => Color.white
        { st with backgroundColor := some color }
      | .hashToken colorCode =>
        let color := match Color.fromCode colorCode with
          | .ok c => c
          | .error _ => Color.white
        { st with backgroundColor := some color }
      | _ => st
    else if declaration.property = "color" then
      match declaration.value with
      | .ident value =>
        let color := match Color.fromName value with
          | .ok c => c
          | .error _ => Color.black
        { st with color := some color }
      | .hashToken colorCode =>
        let color := match Color.fromCode colorCode with
          | .ok c => c
          | .error _ => Color.black
        { st with color := some color }
      | _ => st
    else if declaration.property = "display" then
      match declaration.value with
      | .ident value =>
        let displayType := match DisplayType.fromStr value with
          | .ok d => d
          | .error _ => DisplayType.displayNone
        { st with display := some displayType }
      | _ => st
    else st) style

/-- Modelled from the spec (§4.7): the initial display per tag. The `a`
element would be Inline, but `ElementKind` has no `a` variant (see C5);
every existing element kind and Text default to Block. -/
def initialDisplay (nk : NodeKind) : DisplayType :=
  match nk with
  | _ => .block

/-- Modelled from the spec (§4.7): initial font size per tag (`<h1>`/`<h2>`
enlarged). -/
def initialFontSize (nk : NodeKind) : FontSize :=
  match nk with
  | .element .h1 _ => .xxLarge
  | .element .h2 _ => .xLarge
  | _ => .medium

/-- Modelled from the spec: `defaulting_style` / `ComputedStyle::defaulting`
(computed_style.rs is not under src/): properties not set by the cascade
inherit from the parent when inheritable (color, font_size,
text_decoration) and otherwise take their initial values; display is not
inherited. -/
def defaulting (st : ComputedStyle) (nk : NodeKind)
    (parentStyle : Option ComputedStyle) : ComputedStyle :=
  let inh : ComputedStyle :=
    match parentStyle with
    | some ps =>
      { st with
        color := st.color <|> ps.color,
        fontSize := st.fontSize <|> ps.fontSize,
        textDecoration := st.textDecoration <|> ps.textDecoration }
    | none => st
  { backgroundColor := inh.backgroundColor <|> some Color.white,
    color := inh.color <|> some Color.black,
    display := inh.display <|> some (initialDisplay nk),
    fontSize := inh.fontSize <|> some (initialFontSize nk),
    textDecoration := inh.textDecoration <|> some TextDecoration.none }

/-- The Block branch of `compute_size` (the `while` loop over the children
with `previous_child_kind` initialized to Block): sum the heights of the
children for which the previous child or the child itself is a Block. -/
def blockHeightFold : List (LayoutObjectKind × LayoutSize) → LayoutObjectKind → Int
  | [], _ => 0
  | (k, sz) :: rest, previousChildKind =>
    (if previousChildKind = .block ∨ k = .block then sz.height else 0) +
      blockHeightFold rest k

/-- Embedding of `LayoutObject::compute_size` (layout_object.rs lines
321–401). The children enter as (kind, size) pairs, their sizes already
computed as in the post-order pass of `calculate_node_size`. -/
def computeSize (kind : LayoutObjectKind) (fontSize : FontSize)
    (nodeKind : NodeKind) (parentSize : LayoutSize)
    (children : List (LayoutObjectKind × LayoutSize)) : LayoutSize :=
  match kind with
  | .block =>
    { width := parentSize.width, height := blockHeightFold children .block }
  | .inline =>
    { width := (children.map (fun c => c.2.width)).sum,
      height := (children.map (fun c => c.2.height)).sum }
  | .text =>
    match nodeKind with
    | .text t =>
      let scale : Int := match fontSize with
        | .medium => 1
        | .xLarge => 2
        | .xxLarge => 3
      let width := CHAR_WIDTH * scale * (t.length : Int)
      if width > CONTENT_AREA_WIDTH then
        let lineNum := if width % CONTENT_AREA_WIDTH = 0 then
            width / CONTENT_AREA_WIDTH
          else width / CONTENT_AREA_WIDTH + 1
        { width := CONTENT_AREA_WIDTH,
          height := CHAR_HEIGHT_WITH_PADDING * scale * lineNum }
      else
        { width := width, height := CHAR_HEIGHT_WITH_PADDING * scale }
    | _ => { width := 0, height := 0 }

/-- The specification's formulation of the Block height: a child contributes
its height exactly when it is the first child, or its previous sibling is a
Block, or it is itself a Block (`none` marks the first child, which has no
previous sibling). -/
def specBlockHeight (prev : Option LayoutObjectKind)
    (children : List (LayoutObjectKind × LayoutSize)) : Int :=
  ((children.zip (prev :: children.map (fun c => some c.1))).map
    (fun p =>
      if p.2 = none ∨ p.2 = some LayoutObjectKind.block ∨
          p.1.1 = LayoutObjectKind.block
      then p.1.2.height else 0)).sum

/-- The source fold agrees with the spec formulation once the previous kind
is a Block (which is how the source initializes it — making the first child
always contribute, like the spec's first-child clause). -/
theorem blockHeightFold_eq_spec (children : List (LayoutObjectKind × LayoutSize)) :
    blockHeightFold children .block = specBlockHeight none children := by
  have key : ∀ (cs : List (LayoutObjectKind × LayoutSize)),
      blockHeightFold cs .block = specBlockHeight (some .block) cs := by
    intro cs
    have gen : ∀ (cs : List (LayoutObjectKind × LayoutSize)) (p : LayoutObjectKind),
        blockHeightFold cs p = specBlockHeight (some p) cs := by
      intro cs
      induction cs with
      | nil => intro p; rfl
      | cons hd tl ih =>
        intro p
        cases hd with
        | mk k sz =>
          simp only [blockHeightFold, specBlockHeight, List.map_cons, List.zip_cons_cons,
            List.sum_cons] at *
          rw [ih k]
          simp [specBlockHeight]
    exact gen cs .block
  rw [key]
  cases children with
  | nil => rfl
  | cons hd tl =>
    cases hd with
    | mk k sz =>
      simp [specBlockHeight, List.zip_cons_cons]

/-- C9: `compute_size` on a Block layout object sets the width to the
parent's width and the height to the sum of the heights of exactly the
children for which the child or its previous sibling is a Block, the first
child always contributing. -/
theorem compute_size_block (fontSize : FontSize) (nodeKind : NodeKind)
    (parentSize : LayoutSize) (children : List (LayoutObjectKind × LayoutSize)) :
    computeSize .block fontSize nodeKind parentSize children =
      { width := parentSize.width, height := specBlockHeight none children } := by
  simp [computeSize, blockHeightFold_eq_spec]

/-! ## Text wrapping and painting (layout_object.rs lines 44–68, 472–505) -/

/-- The reverse scan `for i in (0..max_index).rev()` of
`find_index_for_line_break`: the largest space index below `maxIndex`. The
source indexes the character vector directly (a panic out of range);
`split_text` only calls it with `maxIndex` below the length, where `get?`
coincides. -/
def findSpaceBelow (line : List Char) : Nat → Option Nat
  | 0 => none
  | i + 1 => if line.get? i = some ' ' then some i else findSpaceBelow line i

/-- Embedding of `find_index_for_line_break`: the rightmost space strictly
below `maxIndex`, or `maxIndex` itself when there is none. -/
def findIndexForLineBreak (line : List Char) (maxIndex : Nat) : Nat :=
  match findSpaceBelow line maxIndex with
  | some i => i
  | none => maxIndex

/-- Rust `str::trim` on a character list. -/
def trimChars (l : List Char) : List Char :=
  ((l.dropWhile Char.isWhitespace).reverse.dropWhile Char.isWhitespace).reverse

/-- Embedding of `split_text` (layout_object.rs lines 55–68), with fuel for
the recursion (`line.length + 1` is ample for every call the painter makes).
Note the limit the source actually uses: `WINDOW_WIDTH + WINDOW_PADDING`,
not `CONTENT_AREA_WIDTH`. `String::len`/`split_at` count bytes in the
source; the engine's inputs are ASCII and are modelled by character
positions. -/
def splitText (fuel : Nat) (line : List Char) (charWidth : Int) : List (List Char) :=
  match fuel with
  | 0 => []
  | fuel + 1 =>
    if (line.length : Int) * charWidth > WINDOW_WIDTH + WINDOW_PADDING then
      let maxIndex := ((WINDOW_WIDTH + WINDOW_PADDING) / charWidth).toNat
      let i := findIndexForLineBreak line maxIndex
      line.take i :: splitText fuel (trimChars (line.drop i)) charWidth
    else [line]

/-- The split-on-space of the paint normalization (`split(' ')`). -/
def splitOnSpace : List Char → List (List Char)
  | [] => [[]]
  | c :: rest =>
    match splitOnSpace rest with
    | g :: gs => if c = ' ' then [] :: g :: gs else (c :: g) :: gs
    | [] => [[c]]

/-- Embedding of the Text-branch normalization in `paint`: replace newlines
by spaces, split on spaces, drop empty fragments, re-join with single
spaces. -/
def normalizeText (t : List Char) : List Char :=
  List.intercalate [' ']
    ((splitOnSpace (t.map (fun c => if c = '\n' then ' ' else c))).filter
      (fun s => !s.isEmpty))

/-- Embedding of the Text branch of `LayoutObject::paint` (layout_object.rs
lines 472–505): the texts of the emitted `DisplayItem::Text` lines (their
per-line vertical offsets play no role in the claim). -/
def paintTextLines (fontSize : FontSize) (t : List Char) : List (List Char) :=
  let scale : Int := match fontSize with
    | .medium => 1
    | .xLarge => 2
    | .xxLarge => 3
  let plainText := normalizeText t
  splitText (plainText.length + 1) plainText (CHAR_WIDTH * scale)

/-- C7 counterexample: a Text node of 74 non-space characters is painted as
ONE `DisplayItem::Text` line of width 74 · CHAR_WIDTH = 592, which EXCEEDS
CONTENT_AREA_WIDTH = 590 — `split_text` wraps at
`WINDOW_WIDTH + WINDOW_PADDING` (605), not at `CONTENT_AREA_WIDTH`. -/
theorem paint_line_wider_than_content_area :
    paintTextLines .medium (List.replicate 74 'x') = [List.replicate 74 'x'] ∧
    ((List.replicate 74 'x').length : Int) * (CHAR_WIDTH * 1) > CONTENT_AREA_WIDTH := by
  constructor
  · decide
  · decide

/-- Largest-space characterization of the reverse scan. -/
theorem findSpaceBelow_spec (line : List Char) (m : Nat) :
    (∀ i, findSpaceBelow line m = some i →
      i < m ∧ line.get? i = some ' ') ∧
    (findSpaceBelow line m = none → ∀ j, j < m → line.get? j ≠ some ' ') := by
  induction m with
  | zero =>
    constructor
    · intro i h
      simp [findSpaceBelow] at h
    · intro _ j hj
      omega
  | succ n ih =>
    constructor
    · intro i h
      rw [findSpaceBelow] at h
      by_cases hc : line.get? n = some ' '
      · rw [if_pos hc] at h
        cases h
        exact ⟨Nat.lt_succ_self n, hc⟩
      · rw [if_neg hc] at h
        obtain ⟨hlt, hsp⟩ := ih.1 i h
        exact ⟨Nat.lt_succ_of_lt hlt, hsp⟩
    · intro h j hj
      rw [findSpaceBelow] at h
      by_cases hc : line.get? n = some ' '
      · rw [if_pos hc] at h
        cases h
      · rw [if_neg hc] at h
        rcases Nat.lt_succ_iff_lt_or_eq.mp hj with hj' | hj'
        · exact ih.2 h j hj'
        · subst hj'
          exact hc

/-- C7 amended: every line `split_text` emits has width at most
`WINDOW_WIDTH + WINDOW_PADDING` — the limit the source actually wraps at
(not `CONTENT_AREA_WIDTH`); and every break index chosen by
`find_index_for_line_break` is a space strictly below the limit index
unless no space exists below it, in which case the split is at the limit
index itself. -/
theorem split_text_width_and_breaks :
    (∀ (fuel : Nat) (line : List Char) (charWidth : Int), 0 < charWidth →
      ∀ l ∈ splitText fuel line charWidth,
        (l.length : Int) * charWidth ≤ WINDOW_WIDTH + WINDOW_PADDING) ∧
    (∀ (line : List Char) (maxIndex : Nat),
      (findIndexForLineBreak line maxIndex < maxIndex ∧
        line.get? (findIndexForLineBreak line maxIndex) = some ' ') ∨
      (findIndexForLineBreak line maxIndex = maxIndex ∧
        ∀ j, j < maxIndex → line.get? j ≠ some ' ')) := by
  constructor
  · intro fuel
    induction fuel with
    | zero =>
      intro line charWidth _ l hl
      simp [splitText] at hl
    | succ n ih =>
      intro line charWidth hcw l hl
      rw [splitText] at hl
      by_cases hwide : (line.length : Int) * charWidth > WINDOW_WIDTH + WINDOW_PADDING
      · rw [if_pos hwide] at hl
        rcases List.mem_cons.mp hl with hl | hl
        · subst hl
          have hidx : findIndexForLineBreak line
              (((WINDOW_WIDTH + WINDOW_PADDING) / charWidth).toNat) ≤
              ((WINDOW_WIDTH + WINDOW_PADDING) / charWidth).toNat := by
            unfold findIndexForLineBreak
            cases hfs : findSpaceBelow line
                (((WINDOW_WIDTH + WINDOW_PADDING) / charWidth).toNat) with
            | none => exact Nat.le_refl _
            | some i =>
              exact Nat.le_of_lt ((findSpaceBelow_spec line _).1 i hfs).1
          have hlen : (line.take (findIndexForLineBreak line
              (((WINDOW_WIDTH + WINDOW_PADDING) / charWidth).toNat))).length ≤
              ((WINDOW_WIDTH + WINDOW_PADDING) / charWidth).toNat := by
            rw [List.length_take]
            exact Nat.le_trans (Nat.min_le_left _ _) hidx
          have hle : ((((WINDOW_WIDTH + WINDOW_PADDING) / charWidth).toNat : Int)) * charWidth ≤
              WINDOW_WIDTH + WINDOW_PADDING := by
            have hnn : 0 ≤ (WINDOW_WIDTH + WINDOW_PADDING) / charWidth := by
              apply Int.ediv_nonneg _ (Int.le_of_lt hcw)
              decide
            rw [Int.toNat_of_nonneg hnn]
            exact Int.ediv_mul_le _ (by omega)
          have h1 : ((line.take (findIndexForLineBreak line
              (((WINDOW_WIDTH + WINDOW_PADDING) / charWidth).toNat))).length : Int) ≤
              (((WINDOW_WIDTH + WINDOW_PADDING) / charWidth).toNat : Int) := by
            exact_mod_cast hlen
          calc ((line.take (findIndexForLineBreak line
                (((WINDOW_WIDTH + WINDOW_PADDING) / charWidth).toNat))).length : Int) * charWidth
              ≤ (((WINDOW_WIDTH + WINDOW_PADDING) / charWidth).toNat : Int) * charWidth :=
                Int.mul_le_mul_of_nonneg_right h1 (Int.le_of_lt hcw)
            _ ≤ WINDOW_WIDTH + WINDOW_PADDING := hle
        · exact ih _ charWidth hcw l hl
      · rw [if_neg hwide] at hl
        rcases List.mem_singleton.mp hl with hl
        subst hl
        exact not_lt.mp hwide
  · intro line maxIndex
    unfold findIndexForLineBreak
    cases hfs : findSpaceBelow line maxIndex with
    | some i =>
      left
      exact (findSpaceBelow_spec line maxIndex).1 i hfs
    | none =>
      right
      exact ⟨rfl, (findSpaceBelow_spec line maxIndex).2 hfs⟩

/-- C7 amended, witness: 80 non-space characters at char width 8 split at
index 75 (no space below the limit), and the first emitted line measures
600 ≤ 605. -/
theorem split_text_width_and_breaks_witness :
    ((List.replicate 75 'x').length : Int) * 8 ≤ WINDOW_WIDTH + WINDOW_PADDING ∧
    (findIndexForLineBreak (List.replicate 80 'x') 75 = 75 ∧
      ∀ j, j < 75 → (List.replicate 80 'x').get? j ≠ some ' ') := by
  constructor
  · exact split_text_width_and_breaks.1 5 (List.replicate 80 'x') 8 (by decide)
      (List.replicate 75 'x') (by decide)
  · rcases split_text_width_and_breaks.2 (List.replicate 80 'x') 75 with h | h
    · exact absurd h.2 (by decide)
    · exact h

/-! ## Layout-tree construction (layout_object.rs lines 510–549 and
layout_view.rs lines 150–233) -/

/-- The style computation of `create_layout_object`: the cascade over the
stylesheet's rules in order (each rule whose selector matches contributes
its declarations), then defaulting against the parent style. -/
def resolvedStyle (cssom : StyleSheet) (parentStyle : Option ComputedStyle)
    (nk : NodeKind) : ComputedStyle :=
  defaulting
    (cssom.rules.foldl (fun st rule =>
      if isNodeSelected nk rule.selector then cascadingStyle st rule.declarations
      else st) ComputedStyle.new)
    nk parentStyle

/-- Embedding of `LayoutObject::update_kind` (layout_object.rs lines
300–315), keyed on the resolved display. The source PANICS on a Document
node and on DisplayNone; `create_layout_object` checks DisplayNone first so
that arm is unreachable, and the Document panic is conflated with `none`
here — the structural theorem below therefore assumes document-free input
forests (the layout tree is built from the body element down). -/
def updateKind (nk : NodeKind) (display : DisplayType) : Option LayoutObjectKind :=
  match nk with
  | .document => none
  | .element _ _ =>
    match display with
    | .block => some .block
    | .inline => some .inline
    | .displayNone => none
  | .text _ => some .text

/-- Embedding of `create_layout_object` (layout_object.rs lines 510–549):
resolve the style; return `none` when display is DisplayNone (no layout
object for this subtree); otherwise finalize the object kind. -/
def createLayoutObject (cssom : StyleSheet) (parentStyle : Option ComputedStyle)
    (nk : NodeKind) : Option (ComputedStyle × LayoutObjectKind) :=
  let style := resolvedStyle cssom parentStyle nk
  if style.displayD = DisplayType.displayNone then none
  else
    match updateKind nk style.displayD with
    | some k => some (style, k)
    | none => none

/-- A layout node in the pure-forest view: `first_child` becomes the
children list and the `next_sibling` chain of the source becomes the tail of
the list a node sits in. -/
inductive LayoutTree where
  | mk (kind : LayoutObjectKind) (style : ComputedStyle) (node : NodeKind)
       (children : List LayoutTree)

/-- Final kind of a layout node. -/
def LayoutTree.kind : LayoutTree → LayoutObjectKind
  | .mk k _ _ _ => k

/-- Computed style of a layout node. -/
def LayoutTree.style : LayoutTree → ComputedStyle
  | .mk _ s _ _ => s

/-- DOM node kind of a layout node. -/
def LayoutTree.node : LayoutTree → NodeKind
  | .mk _ _ n _ => n

/-- Children of a layout node. -/
def LayoutTree.children : LayoutTree → List LayoutTree
  | .mk _ _ _ c => c

/-- The `while layout_object.is_none()` loop at the head of
`build_layout_tree`: advance along the sibling list (keeping the same
parent object) until `create_layout_object` yields an object; return the
found node, its remaining siblings and its style and kind. -/
def findVisibleSibling (cssom : StyleSheet) (parentStyle : Option ComputedStyle) :
    List DomTree → Option (DomTree × List DomTree × ComputedStyle × LayoutObjectKind)
  | [] => none
  | n :: rest =>
    match createLayoutObject cssom parentStyle n.kind with
    | some (style, k) => some (n, rest, style, k)
    | none => findVisibleSibling cssom parentStyle rest

/-- The two retry loops of `build_layout_tree` ("if the child / sibling was
display:none, try the next sibling until an object is created or the
siblings run out"): first non-empty build over successive suffixes. -/
def retryWith (build : List DomTree → List LayoutTree) :
    List DomTree → List LayoutTree
  | [] => []
  | d :: tail =>
    match build (d :: tail) with
    | [] => retryWith build tail
    | r => r

/-- The "retry when empty but DOM nodes remain" pattern of
`build_layout_tree`: keep the built forest unless it is empty while DOM
nodes existed, in which case re-run the build over the successive
suffixes (the source's `if first_child.is_none() && ...is_some()` loops). -/
def fixEmpty (build : List DomTree → List LayoutTree) (dn : List DomTree) :
    List LayoutTree :=
  match build dn with
  | [] =>
    match dn with
    | [] => []
    | _ :: tail => retryWith build tail
  | x :: xs => x :: xs

/-- Embedding of `build_layout_tree` (layout_view.rs lines 150–233) on the
pure-forest view: the argument list is the sibling chain starting at the
source's `node`, and the returned list is the chain hanging off the
returned `Option<LayoutObject>` (empty list = `None`). The head loop skips
to the first sibling yielding an object; its children are built with the
new object as parent, its remaining siblings with parent `None` (exactly as
the source passes `&None`); and when a build comes back empty although DOM
nodes existed, the source's retry loops re-run the build over the
successive suffixes (`fixEmpty`). Fuel bounds the recursion depth (one unit
per node level and per sibling group; any fuel at least the node count is
enough, and the theorems quantify over the fuel they need). -/
def buildLayoutTree (cssom : StyleSheet) :
    Nat → List DomTree → Option ComputedStyle → List LayoutTree
  | 0, _, _ => []
  | fuel + 1, ns, parentStyle =>
    match findVisibleSibling cssom parentStyle ns with
    | none => []
    | some (n, rest, style, k) =>
      .mk k style n.kind
        (fixEmpty (fun dn => buildLayoutTree cssom fuel dn (some style)) n.children) ::
      fixEmpty (fun dn => buildLayoutTree cssom fuel dn none) rest

/-- Visibility of a DOM node under a stylesheet: `create_layout_object`
yields an object. The parent style plays no role (display is not
inherited); see `createLayoutObject_indep`. -/
def visible (cssom : StyleSheet) (nk : NodeKind) : Bool :=
  (createLayoutObject cssom none nk).isSome

/-- The layout forest contains no object whose display is DisplayNone
(recursively). -/
inductive NoneFreeT : LayoutTree → Prop where
  | mk : ∀ k style node children,
      style.displayD ≠ DisplayType.displayNone →
      (∀ c ∈ children, NoneFreeT c) →
      NoneFreeT (.mk k style node children)

/-- A DOM forest without Document nodes (the layout builder is only run on
the body element's subtree). -/
inductive DocFree : DomTree → Prop where
  | mk : ∀ k c, k ≠ NodeKind.document → (∀ t ∈ c, DocFree t) → DocFree (.mk k c)

/-- The display field of the resolved style never depends on the parent
style: display is not an inherited property. -/
theorem resolvedStyle_display_indep (cssom : StyleSheet)
    (p : Option ComputedStyle) (nk : NodeKind) :
    (resolvedStyle cssom p nk).display = (resolvedStyle cssom none nk).display := by
  unfold resolvedStyle defaulting
  cases p with
  | none => rfl
  | some ps => rfl

/-- Whether `create_layout_object` yields an object never depends on the
parent style. -/
theorem createLayoutObject_indep (cssom : StyleSheet)
    (p : Option ComputedStyle) (nk : NodeKind) :
    (createLayoutObject cssom p nk).isSome = (createLayoutObject cssom none nk).isSome := by
  unfold createLayoutObject
  dsimp only
  have hd : (resolvedStyle cssom p nk).displayD = (resolvedStyle cssom none nk).displayD := by
    unfold ComputedStyle.displayD
    rw [resolvedStyle_display_indep]
  rw [hd]
  by_cases hc : (resolvedStyle cssom none nk).displayD = DisplayType.displayNone
  · rw [if_pos hc, if_pos hc]
  · rw [if_neg hc, if_neg hc]
    cases updateKind nk (resolvedStyle cssom none nk).displayD <;> rfl

/-- An object produced by `create_layout_object` never has display
DisplayNone. -/
theorem createLayoutObject_some_display (cssom : StyleSheet)
    (p : Option ComputedStyle) (nk : NodeKind) (style : ComputedStyle)
    (k : LayoutObjectKind) (h : createLayoutObject cssom p nk = some (style, k)) :
    style.displayD ≠ DisplayType.displayNone := by
  unfold createLayoutObject at h
  by_cases hc : (resolvedStyle cssom p nk).displayD = DisplayType.displayNone
  · rw [if_pos hc] at h
    cases h
  · rw [if_neg hc] at h
    cases hu : updateKind nk (resolvedStyle cssom p nk).displayD with
    | none =>
      rw [hu] at h
      cases h
    | some k' =>
      rw [hu] at h
      cases h
      exact hc

/-- The head loop comes back empty exactly when every sibling is
display:none. -/
theorem findVisibleSibling_none (cssom : StyleSheet) (p : Option ComputedStyle)
    (ns : List DomTree) :
    findVisibleSibling cssom p ns = none ↔
      ∀ n ∈ ns, createLayoutObject cssom p n.kind = none := by
  induction ns with
  | nil => simp [findVisibleSibling]
  | cons hd tl ih =>
    simp only [findVisibleSibling]
    cases hc : createLayoutObject cssom p hd.kind with
    | some v =>
      cases v with
      | mk style k =>
        constructor
        · intro h
          cases h
        · intro h
          have hx := h hd (List.mem_cons_self hd tl)
          rw [hc] at hx
          cases hx
    | none =>
      rw [ih]
      constructor
      · intro h n hn
        rcases List.mem_cons.mp hn with rfl | hn
        · exact hc
        · exact h n hn
      · intro h n hn
        exact h n (List.mem_cons_of_mem hd hn)

/-- When the head loop finds a node, that node is the first visible sibling:
everything before it is display:none. -/
theorem findVisibleSibling_some (cssom : StyleSheet) (p : Option ComputedStyle)
    (ns : List DomTree) (n : DomTree) (rest : List DomTree)
    (style : ComputedStyle) (k : LayoutObjectKind)
    (h : findVisibleSibling cssom p ns = some (n, rest, style, k)) :
    createLayoutObject cssom p n.kind = some (style, k) ∧
    ∃ pre, ns = pre ++ n :: rest ∧
      ∀ m ∈ pre, createLayoutObject cssom p m.kind = none := by
  induction ns with
  | nil => simp [findVisibleSibling] at h
  | cons hd tl ih =>
    simp only [findVisibleSibling] at h
    cases hc : createLayoutObject cssom p hd.kind with
    | some v =>
      cases v with
      | mk style' k' =>
        rw [hc] at h
        cases h
        refine ⟨hc, [], rfl, ?_⟩
        intro m hm
        cases hm
    | none =>
      rw [hc] at h
      obtain ⟨h1, pre, heq, hpre⟩ := ih h
      refine ⟨h1, hd :: pre, by rw [heq, List.cons_append], ?_⟩
      intro m hm
      rcases List.mem_cons.mp hm with rfl | hm
      · exact hc
      · exact hpre m hm

/-- Membership in a retried build is membership in some suffix build. -/
theorem retryWith_mem (build : List DomTree → List LayoutTree)
    (Q : LayoutTree → Prop) (hQ : ∀ dn t, t ∈ build dn → Q t) :
    ∀ dn t, t ∈ retryWith build dn → Q t := by
  intro dn
  induction dn with
  | nil =>
    intro t ht
    simp [retryWith] at ht
  | cons d tail ih =>
    intro t ht
    rw [retryWith] at ht
    cases hb : build (d :: tail) with
    | nil =>
      rw [hb] at ht
      exact ih t ht
    | cons x xs =>
      rw [hb] at ht
      exact hQ (d :: tail) t (by rw [hb]; exact ht)

/-- `fixEmpty` on an empty build result dispatches to the retry loop. -/
theorem fixEmpty_of_nil (build : List DomTree → List LayoutTree)
    (dn : List DomTree) (hb : build dn = []) :
    fixEmpty build dn =
      match dn with
      | [] => []
      | _ :: tail => retryWith build tail := by
  unfold fixEmpty
  rw [hb]
  cases dn <;> rfl

/-- `fixEmpty` on an empty build over a non-empty sibling list retries from
the second sibling on. -/
theorem fixEmpty_nil_cons (build : List DomTree → List LayoutTree)
    (d : DomTree) (tail : List DomTree) (hb : build (d :: tail) = []) :
    fixEmpty build (d :: tail) = retryWith build tail := by
  unfold fixEmpty
  rw [hb]

/-- `fixEmpty` keeps a non-empty build result. -/
theorem fixEmpty_of_ne (build : List DomTree → List LayoutTree)
    (dn : List DomTree) (hb : build dn ≠ []) :
    fixEmpty build dn = build dn := by
  unfold fixEmpty
  cases hb2 : build dn with
  | nil => exact absurd hb2 hb
  | cons x xs => rfl

/-- Membership after `fixEmpty` is membership in some (suffix) build. -/
theorem fixEmpty_mem (build : List DomTree → List LayoutTree)
    (Q : LayoutTree → Prop) (hQ : ∀ dn t, t ∈ build dn → Q t) :
    ∀ dn t, t ∈ fixEmpty build dn → Q t := by
  intro dn t ht
  cases hb : build dn with
  | nil =>
    rw [fixEmpty_of_nil build dn hb] at ht
    cases dn with
    | nil => cases ht
    | cons d tail => exact retryWith_mem build Q hQ tail t ht
  | cons x xs =>
    rw [fixEmpty_of_ne build dn (by rw [hb]; exact List.cons_ne_nil x xs)] at ht
    exact hQ dn t ht

/-- When every suffix builds empty, the retry loop yields nothing. -/
theorem retryWith_empty (build : List DomTree → List LayoutTree) :
    ∀ (l : List DomTree), (∀ dn, dn <:+ l → build dn = []) →
      retryWith build l = [] := by
  intro l
  induction l with
  | nil =>
    intro _
    rfl
  | cons d tail ih =>
    intro h
    rw [retryWith, h (d :: tail) (List.suffix_refl _)]
    exact ih (fun dn hdn => h dn (hdn.trans (List.suffix_cons d tail)))

/-- Visibility rephrased against an arbitrary parent style. -/
theorem visible_eq (cssom : StyleSheet) (p : Option ComputedStyle) (nk : NodeKind) :
    visible cssom nk = (createLayoutObject cssom p nk).isSome := by
  unfold visible
  exact (createLayoutObject_indep cssom p nk).symm

/-- C8: the constructed layout tree never contains an object whose display
is DisplayNone, and at every level the roots of the built sibling chain are
exactly the visible siblings (those for which `create_layout_object` yields
an object) in source order — a hidden node contributes nothing and
construction continues with its following siblings. The `DocFree`
hypothesis restricts the second part to forests without Document nodes: the
source panics in `update_kind` on a Document (here conflated with a skip),
and the layout tree is only ever built from the body element down. -/
theorem layout_tree_excludes_display_none (cssom : StyleSheet) :
    (∀ (fuel : Nat) (ns : List DomTree) (p : Option ComputedStyle) (t : LayoutTree),
      t ∈ buildLayoutTree cssom fuel ns p → NoneFreeT t) ∧
    (∀ (fuel : Nat) (ns : List DomTree) (p : Option ComputedStyle),
      ns.length ≤ fuel → (∀ n ∈ ns, DocFree n) →
      (buildLayoutTree cssom fuel ns p).map LayoutTree.node =
        (ns.filter (fun n => visible cssom n.kind)).map DomTree.kind) := by
  constructor
  · intro fuel
    induction fuel with
    | zero =>
      intro ns p t ht
      simp [buildLayoutTree] at ht
    | succ f ih =>
      intro ns p t ht
      rw [buildLayoutTree] at ht
      cases hfv : findVisibleSibling cssom p ns with
      | none =>
        rw [hfv] at ht
        cases ht
      | some q =>
        obtain ⟨nd, rest, style, k⟩ := q
        rw [hfv] at ht
        rcases List.mem_cons.mp ht with rfl | ht
        · refine NoneFreeT.mk _ _ _ _ ?_ ?_
          · exact createLayoutObject_some_display cssom p nd.kind style k
              (findVisibleSibling_some cssom p ns nd rest style k hfv).1
          · intro c hc
            exact fixEmpty_mem _ _ (fun dn t' ht' => ih dn (some style) t' ht') _ c hc
        · exact fixEmpty_mem _ _ (fun dn t' ht' => ih dn none t' ht') _ t ht
  · have partb : ∀ (fuel : Nat) (ns : List DomTree) (p : Option ComputedStyle),
        ns.length ≤ fuel →
        (buildLayoutTree cssom fuel ns p).map LayoutTree.node =
          (ns.filter (fun n => visible cssom n.kind)).map DomTree.kind := by
      intro fuel
      induction fuel with
      | zero =>
        intro ns p hlen
        have hnil : ns = [] := List.eq_nil_of_length_eq_zero (Nat.le_zero.mp hlen)
        subst hnil
        rfl
      | succ f ih =>
        intro ns p hlen
        rw [buildLayoutTree]
        cases hfv : findVisibleSibling cssom p ns with
        | none =>
          have hall := (findVisibleSibling_none cssom p ns).mp hfv
          have hfil : ns.filter (fun n => visible cssom n.kind) = [] := by
            rw [List.filter_eq_nil_iff]
            intro a ha
            rw [visible_eq cssom p a.kind, hall a ha]
            simp
          rw [hfil]
          rfl
        | some q =>
          obtain ⟨nd, rest, style, k⟩ := q
          obtain ⟨hcr, pre, heq, hpre⟩ :=
            findVisibleSibling_some cssom p ns nd rest style k hfv
          subst heq
          have hrlen : rest.length ≤ f := by
            rw [List.length_append, List.length_cons] at hlen
            omega
          have hvnd : visible cssom nd.kind = true := by
            rw [visible_eq cssom p nd.kind, hcr]
            rfl
          have hfpre : pre.filter (fun n => visible cssom n.kind) = [] := by
            rw [List.filter_eq_nil_iff]
            intro a ha
            rw [visible_eq cssom p a.kind, hpre a ha]
            simp
          have hfil : (pre ++ nd :: rest).filter (fun n => visible cssom n.kind) =
              nd :: rest.filter (fun n => visible cssom n.kind) := by
            rw [List.filter_append, hfpre, List.nil_append,
              List.filter_cons_of_pos]
            exact hvnd
          rw [hfil]
          simp only [List.map_cons, LayoutTree.node]
          congr 1
          cases hb : buildLayoutTree cssom f rest none with
          | cons x xs =>
            rw [fixEmpty_of_ne _ _ (by rw [hb]; exact List.cons_ne_nil x xs), hb]
            rw [← hb]
            exact ih rest none hrlen
          | nil =>
            have hrfil : rest.filter (fun n => visible cssom n.kind) = [] := by
              have hthis := ih rest none hrlen
              rw [hb] at hthis
              simp only [List.map_nil] at hthis
              exact List.map_eq_nil_iff.mp hthis.symm
            rw [hrfil]
            cases rest with
            | nil =>
              rw [fixEmpty_of_nil _ _ hb]
              rfl
            | cons r rtail =>
              rw [fixEmpty_nil_cons _ _ _ hb]
              have hrestall : ∀ m ∈ r :: rtail, ¬ (visible cssom m.kind = true) :=
                List.filter_eq_nil_iff.mp hrfil
              have hret : retryWith (fun dn => buildLayoutTree cssom f dn none) rtail = [] := by
                apply retryWith_empty
                intro dn hdn
                have hlen2 : dn.length ≤ f := by
                  have h1 := List.IsSuffix.length_le hdn
                  rw [List.length_cons] at hrlen
                  omega
                have hthis := ih dn none hlen2
                have hfil2 : dn.filter (fun n => visible cssom n.kind) = [] := by
                  rw [List.filter_eq_nil_iff]
                  intro a ha
                  exact hrestall a (List.mem_cons_of_mem r (List.IsSuffix.subset hdn ha))
                rw [hfil2] at hthis
                simp only [List.map_nil] at hthis
                exact List.map_eq_nil_iff.mp hthis
              rw [hret]
              rfl
    intro fuel ns p hlen _
    exact partb fuel ns p hlen

/-- The S4 stylesheet: `.hidden { display: none; }`. -/
def c8Cssom : StyleSheet :=
  { rules := [{ selector := .classSelector "hidden",
                declarations := [{ property := "display", value := .ident "none" }] }] }

/-- `<p class="hidden">a</p>`. -/
def c8Hidden : DomTree := .mk (.element .p [⟨"class", "hidden"⟩]) [.mk (.text "a") []]

/-- `<p>b</p>`. -/
def c8Shown : DomTree := .mk (.element .p []) [.mk (.text "b") []]

/-- The fully-defaulted style of the visible paragraph and its text. -/
def c8Style : ComputedStyle :=
  ⟨some Color.white, some Color.black, some DisplayType.block, some FontSize.medium,
   some TextDecoration.none⟩

/-- The single layout root built for `[c8Hidden, c8Shown]`. -/
def c8Root : LayoutTree :=
  .mk .block c8Style (.element .p []) [.mk .text c8Style (.text "b") []]

/-- C8 witness: on the S4 scenario (`.hidden` display:none, siblings
`<p class="hidden">a</p><p>b</p>`) the built forest contains exactly the
visible paragraph, which is DisplayNone-free. -/
theorem layout_tree_excludes_display_none_witness :
    NoneFreeT c8Root ∧
    (buildLayoutTree c8Cssom 5 [c8Hidden, c8Shown] none).map LayoutTree.node =
      ([c8Hidden, c8Shown].filter (fun n => visible c8Cssom n.kind)).map DomTree.kind := by
  have hmem : c8Root ∈ buildLayoutTree c8Cssom 5 [c8Hidden, c8Shown] none := by
    rw [show buildLayoutTree c8Cssom 5 [c8Hidden, c8Shown] none = [c8Root] from rfl]
    exact List.mem_singleton_self c8Root
  have hdoc : ∀ n ∈ [c8Hidden, c8Shown], DocFree n := by
    have htext : ∀ s : String, DocFree (.mk (.text s) []) := fun s =>
      DocFree.mk _ _ (fun h => NodeKind.noConfusion h)
        (fun t ht => absurd ht (List.not_mem_nil t))
    intro n hn
    rcases List.mem_cons.mp hn with rfl | hn
    · exact DocFree.mk _ _ (fun h => NodeKind.noConfusion h)
        (fun t ht => by
          rcases List.mem_singleton.mp ht with rfl
          exact htext "a")
    · rcases List.mem_singleton.mp hn with rfl
      exact DocFree.mk _ _ (fun h => NodeKind.noConfusion h)
        (fun t ht => by
          rcases List.mem_singleton.mp ht with rfl
          exact htext "b")
  exact ⟨(layout_tree_excludes_display_none c8Cssom).1 5 [c8Hidden, c8Shown] none c8Root hmem,
    (layout_tree_excludes_display_none c8Cssom).2 5 [c8Hidden, c8Shown] none
      (by simp) hdoc⟩

end RustBrowser
